import Mathlib

set_option linter.unusedSectionVars false
set_option linter.unnecessarySeqFocus false

/-!
Shallow embedding of `backend/abm_toolbox/logit_toolbox.py`
(multinomial-logit toolbox: long-form data construction, upsampling,
model specification, estimation dispatch, prediction, cross-validation),
together with theorems settling the specification claims.

Conventions of the embedding:
* numeric dataframe cells are modelled generically over a linear ordered
  field `α` (instantiated at `ℚ` for concrete evaluation and at `ℝ` where
  the claim is about `np.exp`);
* Python exceptions are modelled with `Except PyErr`;
* external library calls (`pylogit.fit_mle`, `np.random.*`) are modelled
  as oracle parameters, since their code is not part of this repository.
-/

namespace LogitToolbox

/-- Python-level exceptions raised by the embedded functions. -/
inductive PyErr : Type where
  | keyError : PyErr
  | valueError : PyErr
  | zeroDivisionError : PyErr
  | indexError : PyErr
  | typeError : PyErr
  deriving DecidableEq, Repr

/-- A row of the wide `mode_table`: the `mode` column (a string) plus the
remaining named numeric cells, as an association list (pandas row). -/
structure ModeRow (α : Type) where
  mode : String
  attrs : List (String × α)
  deriving DecidableEq

/-- The long-form dataframe built by `long_form_data`, column-wise, exactly
as the Python dict-of-columns `long_data_obj`: the three basic columns
`group`, `alt`, `choice`, then the alternative-specific and the generic
attribute columns in key order. -/
structure LongDF (α : Type) where
  group : List ℤ
  alt : List String
  choice : List α
  cols : List (String × List α)
  deriving DecidableEq

variable {α : Type} [LinearOrderedField α]

/-- `mode_choice`: a list of `n` zeros with a `1` written at position `idx`
(`mode_choice[modes.index(row['mode'])] = 1`). -/
def oneHot (n idx : ℕ) : List α := (List.replicate n (0 : α)).set idx 1

/-- `row.get(row_attr, 0)`: the value of a named cell of a mode-table
row, or `0` when the cell is absent. -/
def rowGetD (r : ModeRow α) (s : String) : α :=
  match List.lookup s r.attrs with
  | some v => v
  | none => 0

/-- The `choice` block contributed by one input row: one-hot at
`modes.index(row['mode'])` when `y_true`, raising `ValueError` when the
row's mode is not in `modes` (Python `list.index`); all zeros otherwise. -/
def choiceBlock (modes : List String) (y_true : Bool) (r : ModeRow α) :
    Except PyErr (List α) :=
  if y_true then
    if r.mode ∈ modes then .ok (oneHot modes.length (modes.indexOf r.mode))
    else .error .valueError
  else .ok (List.replicate modes.length (0 : α))

/-- The column contributed by one generic (case-specific) attribute:
`row[g_attr]` repeated `nalt` times per row, raising `KeyError` when the
attribute is missing from a row. -/
def genericCol (nalt : ℕ) (mode_table : List (ℤ × ModeRow α)) (g : String) :
    Except PyErr (List α) :=
  (fun l => l.flatten) <$> mode_table.mapM (fun p =>
    match List.lookup g p.2.attrs with
    | some v => .ok (List.replicate nalt v)
    | none => .error PyErr.keyError)

/-- `long_form_data(mode_table, alt_attrs, generic_attrs, modes, y_true)`:
builds the long-form dataframe column by column.  `group` repeats each row
index `nalt` times, `alt` repeats the `modes` list, `choice` is the one-hot
indicator, each alternative-specific column reads the per-alternative source
columns with default `0` (`row.get(row_attr, 0)`), and each generic column
repeats `row[g_attr]`.  The final `pd.DataFrame.from_dict` raises
`ValueError` when the accumulated columns do not all have the same
length (which happens when an `alt_attrs` value does not list one source
column per alternative). -/
def long_form_data (mode_table : List (ℤ × ModeRow α))
    (alt_attrs : List (String × List String)) (generic_attrs : List String)
    (modes : List String) (y_true : Bool) : Except PyErr (LongDF α) := do
  let nalt := modes.length
  let choiceChunks ← mode_table.mapM (fun p => choiceBlock modes y_true p.2)
  let gcols ← generic_attrs.mapM (fun g =>
    (fun c => (g, c)) <$> genericCol nalt mode_table g)
  let df : LongDF α :=
      { group := mode_table.flatMap (fun p => List.replicate nalt p.1)
        alt := mode_table.flatMap (fun _ => modes)
        choice := choiceChunks.flatten
        cols := alt_attrs.map (fun as =>
            (as.1, mode_table.flatMap (fun p =>
              as.2.map (fun s => rowGetD p.2 s))))
          ++ gcols }
  if df.alt.length = df.group.length ∧ df.choice.length = df.group.length
      ∧ ∀ c ∈ df.cols, c.2.length = df.group.length then
    .ok df
  else .error .valueError

/-! ### Row-wise long-form dataframes, upsampling (`long_form_data_upsample`) -/

/-- A row of a long-form dataframe, row-wise: the `group` (case ID), `alt`
and `choice` cells plus the remaining named cells. -/
structure LRow (α : Type) where
  group : ℤ
  alt : String
  choice : α
  payload : List (String × α)
  deriving DecidableEq

/-- The distinct case IDs of a long-form dataframe (`set(df['group'])`). -/
def groupsOf (df : List (LRow α)) : List ℤ := (df.map (·.group)).dedup

/-- Insert an ID into an ascending list (insertion-sort step). -/
def insertSorted (g : ℤ) : List ℤ → List ℤ
  | [] => [g]
  | x :: xs => if g ≤ x then g :: x :: xs else x :: insertSorted g xs

/-- Ascending insertion sort of the distinct case IDs (the key order of
pandas `groupby`). -/
def sortInts : List ℤ → List ℤ
  | [] => []
  | x :: xs => insertSorted x (sortInts xs)

/-- pandas `df.groupby('group')`: one sub-frame per distinct case ID, in
ascending ID order, each keeping the original row order. -/
def caseBlocks (df : List (LRow α)) : List (List (LRow α)) :=
  (sortInts (groupsOf df)).map (fun g => df.filter (fun r => r.group = g))

/-- An upsampling instruction for one alternative: `"+N"` (add `N` new
cases) or `"*N"` (multiply the number of cases by `N`). -/
inductive UpSpec : Type where
  | plus (n : ℕ) : UpSpec
  | times (n : ℕ) : UpSpec
  deriving DecidableEq, Repr

/-- `num_new` for one alternative: `int(v[1:])` for `"+N"` and
`int(num * (float(v[1:]) - 1))` for `"*N"`. -/
def numNewOf (num : ℕ) : UpSpec → ℤ
  | .plus n => (n : ℤ)
  | .times n => (num : ℤ) * ((n : ℤ) - 1)

/-- The new case blocks drawn for one alternative of `upsample_new`:
filters the case blocks whose `choice` at position `alt_idx` equals `1`
(raising `IndexError` when some case has fewer rows), then draws `num_new`
random copies with `np.random.choice` (which raises `ValueError` on an
empty population or a negative size).  `pick j` is the random draw oracle;
reduction mod the population size models that `np.random.choice` only
returns indices below the population size. -/
def altNewBlocks (casedata : List (List (LRow α))) (altIdx : ℕ) (sp : UpSpec)
    (pick : ℕ → ℕ) : Except PyErr (List (List (LRow α))) :=
  if ∀ b ∈ casedata, altIdx < b.length then
    let thisAlt := casedata.filter (fun b => decide ((b.map (·.choice)).getD altIdx 0 = 1))
    let numNew := numNewOf thisAlt.length sp
    if thisAlt.isEmpty then .error .valueError
    else if numNew < 0 then .error .valueError
    else .ok ((List.range numNew.toNat).map (fun j =>
      thisAlt.getD (pick j % thisAlt.length) []))
  else .error .indexError

/-- `long_form_data_upsample(long_data_df_in, upsample_new, seed)`: groups
the input into case blocks, draws the prescribed number of copies of
randomly chosen cases for each alternative listed in `upsample_new`,
renumbers the copies with fresh case IDs `maxID + idx + 1`, and appends
them to the input.  `pick i j` is the oracle for the `j`-th draw of the
`i`-th entry of `upsample_new`. -/
def long_form_data_upsample (df : List (LRow α)) (upsample_new : List (ℕ × UpSpec))
    (pick : ℕ → ℕ → ℕ) : Except PyErr (List (LRow α)) := do
  let casedata := caseBlocks df
  let newBlocksPer ← (upsample_new.enum).mapM (fun e =>
    altNewBlocks casedata e.2.1 e.2.2 (pick e.1))
  let newCasedata := newBlocksPer.flatten
  match (groupsOf df).max? with
  | none => .error .valueError    -- np.array([]).max() raises ValueError
  | some maxID =>
    .ok (df ++ (newCasedata.enum.map (fun ib =>
      ib.2.map (fun r => { r with group := maxID + ib.1 + 1 }))).flatten)

/-! ### Model specification (`logit_spec`) -/

/-- One entry of a pylogit specification value: either a single alternative
name (one coefficient for that alternative: generic variables and ASCs) or
a grouping of alternative names sharing one coefficient (alternative-specific
variables). -/
inductive SpecItem : Type where
  | single (alt : String) : SpecItem
  | shared (alts : List String) : SpecItem
  deriving DecidableEq, Repr

/-- `[i for i in range(nalt) if i != ref_alt_idx]`. -/
def nonRefIdx (nalt : ℕ) (ref_alt_idx : ℕ) : List ℕ :=
  (List.range nalt).filter (fun i => i ≠ ref_alt_idx)

/-- `logit_spec(long_data_df, alt_attr_vars, generic_attrs, constant, alts,
ref_alt_idx)`: builds the ordered specification and coefficient-name
dictionaries (each alternative-specific variable applies to all
alternatives with one shared coefficient; each generic variable and the
intercept get one coefficient per non-reference alternative), and returns
them with `numCoef`, the total number of specification entries.  The model
object handed to pylogit is not part of this repository; the returned data
is what determines it. -/
def logit_spec (alt_attr_vars generic_attrs : List String) (constant : Bool)
    (alts : List String) (ref_alt_idx : ℕ) :
    List (String × List SpecItem) × List (String × List String) × ℕ :=
  let nalt := alts.length
  let nonRef := nonRefIdx nalt ref_alt_idx
  let specifications : List (String × List SpecItem) :=
    alt_attr_vars.map (fun v => (v, [SpecItem.shared alts]))
    ++ generic_attrs.map (fun v =>
        (v, nonRef.map (fun i => SpecItem.single (alts.getD i ""))))
    ++ (if constant then
        [("intercept", nonRef.map (fun i => SpecItem.single (alts.getD i "")))]
      else [])
  let names : List (String × List String) :=
    alt_attr_vars.map (fun v => (v, [v]))
    ++ generic_attrs.map (fun v =>
        (v, nonRef.map (fun i => v ++ " for " ++ alts.getD i "")))
    ++ (if constant then
        [("intercept", nonRef.map (fun i => "ASC for " ++ alts.getD i ""))]
      else [])
  let numCoef := (specifications.map (fun s => s.2.length)).sum
  (specifications, names, numCoef)

/-! ### Estimation dispatch (`logit_est_disp`) -/

/-- Oracle model of a pylogit MNL model object (pylogit is an external
library; only the outcomes of its calls matter here): `fullFitOK` says
whether `model.fit_mle(np.zeros(numCoef))` succeeds (rather than raising),
`coefsIndex`/`coefsValues` are `model.coefs.index`/`model.coefs.values`
after a successful full fit, `pointX` is the vector
`model.fit_mle(np.zeros(numCoef), just_point=True)['x']`, and
`indVarNames` is `model.ind_var_names`. -/
structure MLEModel (α : Type) where
  fullFitOK : Bool
  coefsIndex : List String
  coefsValues : List α
  pointX : List α
  indVarNames : List String
  deriving DecidableEq

/-- The dict returned by `logit_est_disp`, with keys `'just_point'`,
`'params'` (an association list of coefficient name / value) and
`'model'`. -/
structure EstResult (α : Type) where
  just_point : Bool
  params : List (String × α)
  model : MLEModel α
  deriving DecidableEq

/-- `logit_est_disp(model, numCoef, nalt, disp)`: tries the full
maximum-likelihood fit and builds `params` from `model.coefs`; on any
exception it falls back to the point-estimate-only fit and builds `params`
from `zip(model.ind_var_names, model_result['x'])`.  The function is total:
the bare `except:` swallows the original exception. -/
def logit_est_disp (m : MLEModel α) : EstResult α :=
  if m.fullFitOK then
    { just_point := false, params := m.coefsIndex.zip m.coefsValues, model := m }
  else
    { just_point := true, params := m.indVarNames.zip m.pointX, model := m }

/-! ### Prediction (`asclogit_pred`) -/

/-- The dataframe handed to `asclogit_pred`: the case-ID column
(`data[customIDColumnName]`) and the named numeric columns. -/
structure PredDF (α : Type) where
  ids : List ℤ
  cols : List (String × List α)
  deriving DecidableEq

/-- Number of rows of the dataframe. -/
def PredDF.nrows (df : PredDF α) : ℕ := df.ids.length

/-- Column lookup (`data[name]`), `none` when the column is absent. -/
def PredDF.col? (df : PredDF α) (name : String) : Option (List α) :=
  List.lookup name df.cols

/-- `np.tile(tmp, numChoices)` where `tmp` is the one-hot vector of
alternative `idx` among `nalt`. -/
def tileOneHot (nalt idx numChoices : ℕ) : List α :=
  (List.replicate numChoices (oneHot (α := α) nalt idx)).flatten

/-- Elementwise sum of a pandas series and a numpy vector; mismatched
lengths raise `ValueError`. -/
def vecAdd (u v : List α) : Except PyErr (List α) :=
  if u.length = v.length then .ok (List.zipWith (· + ·) u v) else .error .valueError

/-- Elementwise product of a pandas series and a numpy vector; mismatched
lengths raise `ValueError`. -/
def vecMul (u v : List α) : Except PyErr (List α) :=
  if u.length = v.length then .ok (List.zipWith (· * ·) u v) else .error .valueError

/-- Python `varname.endswith(flag)`: suffix test on the character
sequences (structurally recursive so that concrete instances evaluate). -/
def strEndsWith (s post : String) : Bool :=
  post.data.isSuffixOf s.data

/-- Worker for `pySplitOn`: scans the characters left to right, splitting
at each non-overlapping occurrence of `sep`; the fuel is an upper bound on
the number of steps (structural recursion on the fuel). -/
def pySplitAux (sep : List Char) : ℕ → List Char → List Char → List (List Char)
  | _, [], acc => [acc.reverse]
  | 0, l, acc => [acc.reverse ++ l]
  | fuel + 1, c :: rest, acc =>
    if sep.isPrefixOf (c :: rest) then
      acc.reverse :: pySplitAux sep fuel (List.drop sep.length (c :: rest)) []
    else pySplitAux sep fuel rest (c :: acc)

/-- Python `varname.split(sep)` for a non-empty separator: the pieces
between the non-overlapping occurrences of `sep`, left to right. -/
def pySplitOn (s sep : String) : List String :=
  (pySplitAux sep.data (s.data.length + 1) s.data []).map (fun cs => String.mk cs)

/-- The utility-accumulation loop of `asclogit_pred`
(`for varname, param in zip(varnames, params)`), starting from
`data['utility'] = 0`.  An alternative-specific variable adds
`data[varname] * param` (missing column: `KeyError`); a case-specific
variable `"X for alt"` adds `use_dummy * param` when `X == 'ASC'`,
`data[X] * use_dummy * param` when `X` is a column, and otherwise prints an
error and returns `None` from the whole function (modelled as `.ok none`).
A variable name splitting on `' for '` into more than two pieces makes the
two-target unpacking raise `ValueError`. -/
def utilLoop (df : PredDF α) (dummies : List (String × List α))
    (flags : List String) (params : List (String × α)) (u : List α) :
    Except PyErr (Option (List α)) :=
  match params with
  | [] => .ok (some u)
  | (vn, beta) :: rest =>
    if ¬ flags.any (fun f => strEndsWith vn f) then
      match df.col? vn with
      | none => .error .keyError
      | some c => do
        let u' ← vecAdd u (c.map (· * beta))
        utilLoop df dummies flags rest u'
    else
      match pySplitOn vn " for " with
      | [main, altn] =>
        match List.lookup altn dummies with
        | none => .error .keyError
        | some dummy =>
          if main = "ASC" then do
            let u' ← vecAdd u (dummy.map (· * beta))
            utilLoop df dummies flags rest u'
          else
            match df.col? main with
            | some c => do
              let dc ← vecMul c dummy
              let u' ← vecAdd u (dc.map (· * beta))
              utilLoop df dummies flags rest u'
            | none => .ok none
      | _ => .error .valueError

/-- `l.take n :: chunksOf n (l.drop n)`: row-major reshape of a flat vector
into rows of length `n` (numpy `reshape`). -/
def chunksOf (n : ℕ) (l : List β) : List (List β) :=
  if _h : n = 0 ∨ l.length = 0 then [] else l.take n :: chunksOf n (l.drop n)
termination_by l.length
decreasing_by
  simp only [not_or] at _h
  simp only [List.length_drop]
  exact Nat.sub_lt (Nat.pos_of_ne_zero _h.2) (Nat.pos_of_ne_zero _h.1)

/-- `v.mean()` of one row. -/
def rowMean (row : List α) : α := row.sum / row.length

/-- `v - v.mean(axis=1, keepdims=True)`, one row. -/
def centerRow (row : List α) : List α := row.map (fun x => x - rowMean row)

/-- `v[v > 700] = 700`, elementwise. -/
def clipHi (x : α) : α := if 700 < x then 700 else x

/-- `v[v < -700] = -700`, elementwise. -/
def clipLo (x : α) : α := if x < -700 then -700 else x

/-- Both clippings applied to one row. -/
def clipRow (row : List α) : List α := (row.map clipHi).map clipLo

/-- `expV / expV.sum(axis=1, keepdims=True)`, one row. -/
def normalizeRow (erow : List α) : List α := erow.map (fun e => e / erow.sum)

/-- numpy `argmax` on one row: index of the first maximal entry. -/
def argmaxIdx (l : List α) : ℕ :=
  ((l.enum).foldl (fun b q => if q.2 > b.2 then q else b) (0, l.headD 0)).1

/-- The `method` argument of `asclogit_pred`. -/
inductive PredMethod : Type where
  | max : PredMethod
  | random : PredMethod
  | nonePred : PredMethod
  deriving DecidableEq, Repr

/-- The value returned by `asclogit_pred`: either Python `None` (the bare
`return` in the unknown-variable branch) or the triple
`(p, y, v_raw)`. -/
inductive PredReturn (α : Type) where
  | noneVal : PredReturn α
  | tuple3 (p : List (List α)) (y : Option (List ℕ)) (v_raw : List (List α)) :
      PredReturn α

/-- `dummies_dict`: for each alternative, the one-hot pattern of its index
tiled `numChoices` times. -/
def predDummies (df : PredDF α) (alts : List String) : List (String × List α) :=
  alts.enum.map (fun q => (q.2, tileOneHot (α := α) alts.length q.1 df.ids.dedup.length))

/-- `case_varname_endswith_flag`: the suffixes `' for <alt>'`. -/
def predFlags (alts : List String) : List String :=
  alts.map (fun n => " for " ++ n)

/-- `asclogit_pred(data_in, modelDict, customIDColumnName, method, seed,
alts)`: accumulates per-row utilities from the fitted parameters, reshapes
them to `(numChoices, -1)`, applies the mean-shifted, clipped softmax row
by row, reshapes to `(-1, nalt)` and derives predictions according to
`method`.  `ex` stands for `np.exp` and `randPick` for the
probability-weighted `np.random.choice` draw of the `'random'` method. -/
def asclogit_pred (df : PredDF α) (params : List (String × α))
    (method : PredMethod) (alts : List String) (ex : α → α)
    (randPick : List α → ℕ) : Except PyErr (PredReturn α) := do
  let numChoices := df.ids.dedup.length
  let nalt := alts.length
  let dummies := predDummies df alts
  let flags := predFlags alts
  let r ← utilLoop df dummies flags params (List.replicate df.nrows (0 : α))
  match r with
  | Option.none => .ok PredReturn.noneVal
  | Option.some u =>
    if numChoices = 0 ∨ ¬ numChoices ∣ u.length then .error .valueError
    else
      let v_raw := chunksOf (u.length / numChoices) u
      let expRows := v_raw.map (fun row => (clipRow (centerRow row)).map ex)
      let p2 := expRows.map normalizeRow
      if nalt = 0 ∨ ¬ nalt ∣ p2.flatten.length then .error .valueError
      else
        let p := chunksOf nalt p2.flatten
        let y : Option (List ℕ) :=
          match method with
          | PredMethod.max => some (p.map argmaxIdx)
          | PredMethod.random => some (p.map randPick)
          | PredMethod.nonePred => none
        .ok (PredReturn.tuple3 p y v_raw)

/-! ### Cross-validation (`logit_cv`) -/

/-- The per-fold case-ID slices of `logit_cv`:
`caseIDs[i * nsampe_fold : (i + 1) * nsampe_fold]` for `i in range(nfold)`,
with `nsampe_fold = int(ncs / nfold)`, taken on the already shuffled
case-ID list. -/
def cvCaseSlices (caseIDs : List ℤ) (nfold : ℕ) : List (List ℤ) :=
  (List.range nfold).map (fun i =>
    (caseIDs.drop (i * (caseIDs.length / nfold))).take (caseIDs.length / nfold))

/-- The per-fold datasets of `logit_cv`:
`long_data_df.loc[long_data_df['group'].isin(<slice i>)]`. -/
def cvData (data : List (LRow α)) (caseIDs : List ℤ) (nfold : ℕ) :
    List (List (LRow α)) :=
  (cvCaseSlices caseIDs nfold).map (fun s =>
    data.filter (fun r => r.group ∈ s))

/-- A long-form row set viewed as the dataframe handed to `asclogit_pred`
inside `logit_cv`: the `group` column is the case-ID column, the other
numeric columns are `choice` and the payload columns (all rows of a frame
produced by `long_form_data` share the same payload schema). -/
def toPredDF (rows : List (LRow α)) : PredDF α :=
  { ids := rows.map (·.group)
    cols := ("choice", rows.map (·.choice)) ::
      ((rows.headD ⟨0, "", 0, []⟩).payload.map (fun q =>
        (q.1, rows.map (fun r => (List.lookup q.1 r.payload).getD 0)))) }

/-- Python unpacking `pred_prob_test, y_pred_test = asclogit_pred(...)` of
the value returned by `asclogit_pred` into two targets: the 3-tuple
`(p, y, v_raw)` has too many values to unpack (`ValueError`), and `None`
is not iterable (`TypeError`). -/
def unpack2 (v : PredReturn α) :
    Except PyErr (List (List α) × Option (List ℕ)) :=
  match v with
  | PredReturn.noneVal => .error .typeError
  | PredReturn.tuple3 _ _ _ => .error .valueError

/-- `sklearn.metrics.accuracy_score`: the fraction of positions where the
two label vectors agree. -/
def accuracy_score (yt yp : List ℕ) : α :=
  (((yt.zip yp).countP (fun q => q.1 = q.2) : ℕ) : α) / (yt.length : α)

/-- `logit_cv(data, alt_attr_vars, generic_attrs, constant, nfold, seed,
alts, upsample_new, method)`: shuffles the case IDs, slices them into
`nfold` folds, and for each fold retrains on the out-of-fold data (sorted
by `(group, alt)` and upsampled) and scores the held-out predictions.
Oracles for external libraries: `shuffle` is `np.random.shuffle`, `pick`
the upsampling draws of fold `holdout`, `mkModel` the pylogit model
produced by `pl.create_choice_model` + `fit_mle` on the training data and
specification, `ex` is `np.exp`, `randPick` the random-draw prediction
method, `macroF1` is `sklearn.metrics.f1_score(..., average='macro')`.
Everything in the loop body after `unpack2` is unreachable in the source
(the unpacking raises first). -/
def logit_cv (data : List (LRow α)) (alt_attr_vars generic_attrs : List String)
    (constant : Bool) (nfold : ℕ) (alts : List String)
    (upsample_new : List (ℕ × UpSpec)) (method : PredMethod)
    (shuffle : List ℤ → List ℤ) (pick : ℕ → ℕ → ℕ → ℕ)
    (mkModel : List (LRow α) →
      List (String × List SpecItem) × List (String × List String) × ℕ →
      MLEModel α)
    (ex : α → α) (randPick : List α → ℕ) (macroF1 : List ℕ → List ℕ → α) :
    Except PyErr ((α × α) × List (α × α)) := do
  if nfold = 0 then .error .zeroDivisionError    -- int(ncs / 0)
  else
    let caseIDs := shuffle (groupsOf data)
    let cv_data := cvData data caseIDs nfold
    let scores ← (List.range nfold).mapM (fun holdout => do
      let test := cv_data.getD holdout []
      let trainList := ((cv_data.enum).filter (fun q => q.1 ≠ holdout)).map (·.2)
      let trainSorted := trainList.flatten.mergeSort (fun r s =>
        decide (r.group < s.group ∨ (r.group = s.group ∧ r.alt ≤ s.alt)))
      let train ← long_form_data_upsample trainSorted upsample_new (pick holdout)
      let spec := logit_spec alt_attr_vars generic_attrs constant alts 0
      let modelDict := logit_est_disp (mkModel train spec)
      let pred ← asclogit_pred (toPredDF test) modelDict.params method alts ex randPick
      let py ← unpack2 pred
      let y_true := (chunksOf alts.length (test.map (·.choice))).map argmaxIdx
      let yp := py.2.getD []
      pure ((accuracy_score y_true yp : α), macroF1 y_true yp))
    .ok ((((scores.map (·.1)).sum / (scores.length : α)),
          ((scores.map (·.2)).sum / (scores.length : α))), scores)

/-! ## Theorems about the claims -/

/-- C6: `logit_est_disp` returns a dict with keys `'just_point'`,
`'params'` and `'model'`; when the full maximum-likelihood fit succeeds,
`just_point` is `False` and `params` maps each coefficient name of
`model.coefs` to its fitted value; when the full fit raises, the function
falls back to the point estimate and returns `just_point = True` with
`params` built from `model.ind_var_names` and the point-estimate vector —
and, being total, it never propagates the original exception. -/
theorem claim_C6_logit_est_disp_fallback (m : MLEModel α) :
    (logit_est_disp m).just_point = !m.fullFitOK
    ∧ (logit_est_disp m).model = m
    ∧ (logit_est_disp m).params =
        (if m.fullFitOK then m.coefsIndex.zip m.coefsValues
         else m.indVarNames.zip m.pointX) := by
  unfold logit_est_disp
  cases h : m.fullFitOK <;> simp [h]

/-- `[i for i in range(n) if i != r]` has `n - 1` elements when `r < n`. -/
lemma length_nonRefIdx (n r : ℕ) (h : r < n) : (nonRefIdx n r).length = n - 1 := by
  have he : nonRefIdx n r = (List.range n).erase r := by
    rw [List.Nodup.erase_eq_filter (List.nodup_range n)]
    unfold nonRefIdx
    apply List.filter_congr
    intro x _
    by_cases hx : x = r
    · subst hx; simp
    · simp [hx]
  rw [he, List.length_erase_of_mem (List.mem_range.mpr h), List.length_range]

/-- Summing a constant `k` over a list gives `length * k`. -/
lemma sum_map_const_len {γ : Type} (l : List γ) (k : ℕ) :
    (l.map (fun _ => k)).sum = l.length * k := by
  induction l with
  | nil => simp
  | cons a t ih => simp [ih]; ring

/-- C5: `logit_spec` gives each alternative-specific variable a single
coefficient shared by all `N` alternatives, gives each generic variable
and (when `constant` is true) the intercept one coefficient per
non-reference alternative (the intercept's named `'ASC for <alt>'`), and
returns `numCoef = A + (G + (1 if constant else 0)) * (N - 1)`. -/
theorem claim_C5_logit_spec (A G : List String) (c : Bool) (alts : List String)
    (ref : ℕ) (href : ref < alts.length)
    (_hnd : (A ++ G ++ (if c then ["intercept"] else [])).Nodup) :
    ((logit_spec A G c alts ref).2.2 =
      A.length + (G.length + (if c then 1 else 0)) * (alts.length - 1))
    ∧ (∀ v ∈ A, (v, [SpecItem.shared alts]) ∈ (logit_spec A G c alts ref).1
        ∧ (v, [v]) ∈ (logit_spec A G c alts ref).2.1)
    ∧ (∀ v ∈ G,
        (v, (nonRefIdx alts.length ref).map
            (fun i => SpecItem.single (alts.getD i ""))) ∈ (logit_spec A G c alts ref).1
        ∧ (v, (nonRefIdx alts.length ref).map
            (fun i => v ++ " for " ++ alts.getD i "")) ∈ (logit_spec A G c alts ref).2.1)
    ∧ (c = true →
        ("intercept", (nonRefIdx alts.length ref).map
            (fun i => SpecItem.single (alts.getD i ""))) ∈ (logit_spec A G c alts ref).1
        ∧ ("intercept", (nonRefIdx alts.length ref).map
            (fun i => "ASC for " ++ alts.getD i "")) ∈ (logit_spec A G c alts ref).2.1) := by
  refine ⟨?_, ?_, ?_, ?_⟩
  · have h1 : ((A.map (fun v => (v, [SpecItem.shared alts]))).map
        (fun s => s.2.length)).sum = A.length := by
      rw [List.map_map]
      have hc : (fun s : String × List SpecItem => s.2.length) ∘
          (fun v => (v, [SpecItem.shared alts])) = fun _ => 1 := rfl
      rw [hc, sum_map_const_len, mul_one]
    have h2 : ((G.map (fun v => (v, (nonRefIdx alts.length ref).map
        (fun i => SpecItem.single (alts.getD i ""))))).map
        (fun s => s.2.length)).sum = G.length * (alts.length - 1) := by
      rw [List.map_map]
      have hc : (fun s : String × List SpecItem => s.2.length) ∘
          (fun v => (v, (nonRefIdx alts.length ref).map
            (fun i => SpecItem.single (alts.getD i "")))) =
          fun _ => alts.length - 1 := by
        funext v
        simp [Function.comp, length_nonRefIdx _ _ href]
      rw [hc, sum_map_const_len]
    have h3 : (((if c then
          [("intercept", (nonRefIdx alts.length ref).map
            (fun i => SpecItem.single (alts.getD i "")))] else [])).map
        (fun s => s.2.length)).sum = (if c then 1 else 0) * (alts.length - 1) := by
      cases c <;> simp [length_nonRefIdx _ _ href]
    simp only [logit_spec]
    rw [List.map_append, List.map_append, List.sum_append, List.sum_append, h1, h2, h3]
    cases c <;> simp <;> ring
  · intro v hv
    constructor <;>
      (simp only [logit_spec, List.mem_append]; left; left;
       exact List.mem_map.mpr ⟨v, hv, rfl⟩)
  · intro v hv
    constructor <;>
      (simp only [logit_spec, List.mem_append]; left; right;
       exact List.mem_map.mpr ⟨v, hv, rfl⟩)
  · intro hc
    subst hc
    constructor <;> (simp only [logit_spec, List.mem_append]; right; simp)

/-- Witness for C5 at a concrete specification: two alternative-specific
variables, one generic variable, constant included, four alternatives,
reference alternative `0`: `numCoef = 2 + (1 + 1) * 3 = 8`. -/
theorem claim_C5_logit_spec_witness :
    (0 < ["drive", "cycle", "walk", "PT"].length
      ∧ (["t", "c"] ++ ["inc"] ++ (if true then ["intercept"] else [])).Nodup)
    ∧ ((logit_spec ["t", "c"] ["inc"] true ["drive", "cycle", "walk", "PT"] 0).2.2 =
        ["t", "c"].length + (["inc"].length + (if true then 1 else 0)) *
          (["drive", "cycle", "walk", "PT"].length - 1)) :=
  ⟨⟨by decide, by decide⟩,
    (claim_C5_logit_spec ["t", "c"] ["inc"] true ["drive", "cycle", "walk", "PT"] 0
      (by decide) (by decide)).1⟩

/-- The plain (unstabilized) softmax of the raw utilities, following the
spec's words ("converts utilities to probabilities via a
numerically-stabilized softmax"): the comparison target for the
stabilized computation used in `asclogit_pred`. -/
def specPlainSoftmax (ex : α → α) (row : List α) : List α :=
  row.map (fun x => ex x / (row.map ex).sum)

/-- Clipping to `[-700, 700]` is the identity within the band. -/
lemma clipRow_eq_self (l : List α) (hb : ∀ y ∈ l, |y| ≤ (700 : α)) :
    clipRow l = l := by
  unfold clipRow
  rw [List.map_map]
  have hpt : ∀ y ∈ l, (clipLo ∘ clipHi) y = y := by
    intro y hy
    have h1 := (abs_le.mp (hb y hy)).1
    have h2 := (abs_le.mp (hb y hy)).2
    have e1 : clipHi y = y := by unfold clipHi; rw [if_neg (not_lt.mpr h2)]
    have e2 : clipLo y = y := by unfold clipLo; rw [if_neg (not_lt.mpr h1)]
    rw [Function.comp_apply, e1, e2]
  rw [List.map_congr_left hpt]
  simp

/-- C4: on any utility row whose mean-centered components lie in
`[-700, 700]`, the probability row computed by `asclogit_pred`'s
stabilization (subtract the row mean, clip to `[-700, 700]`, exponентiate,
normalize) equals the plain softmax of the raw utilities. -/
theorem claim_C4_stabilized_softmax_eq_plain (row : List ℝ)
    (hb : ∀ x ∈ row, |x - rowMean row| ≤ 700) :
    normalizeRow ((clipRow (centerRow row)).map Real.exp) = specPlainSoftmax Real.exp row := by
  have hclip : clipRow (centerRow row) = centerRow row := by
    apply clipRow_eq_self
    intro y hy
    unfold centerRow at hy
    obtain ⟨x, hx, rfl⟩ := List.mem_map.mp hy
    exact hb x hx
  rw [hclip]
  set m := rowMean row with hm
  have hT : ((centerRow row).map Real.exp).sum
      = (row.map Real.exp).sum * Real.exp (-m) := by
    unfold centerRow
    rw [List.map_map]
    have hc : Real.exp ∘ (fun x => x - m) = fun x => Real.exp x * Real.exp (-m) := by
      funext x
      simp only [Function.comp_apply]
      rw [← Real.exp_add]
      ring_nf
    rw [hc]
    exact List.sum_map_mul_right _ _ _
  unfold normalizeRow specPlainSoftmax
  rw [hT]
  unfold centerRow
  rw [List.map_map, List.map_map]
  apply List.map_congr_left
  intro x _
  simp only [Function.comp_apply]
  rw [Real.exp_sub, Real.exp_neg]
  have hS : Real.exp m ≠ 0 := Real.exp_ne_zero m
  field_simp

/-- Witness for C4 at the concrete utility row `[0, 2]` (mean `1`,
centered components `±1`, well inside the band). -/
theorem claim_C4_stabilized_softmax_eq_plain_witness :
    (∀ x ∈ [(0 : ℝ), 2], |x - rowMean [(0 : ℝ), 2]| ≤ 700)
    ∧ normalizeRow ((clipRow (centerRow [(0 : ℝ), 2])).map Real.exp)
        = specPlainSoftmax Real.exp [(0 : ℝ), 2] := by
  have hb : ∀ x ∈ [(0 : ℝ), 2], |x - rowMean [(0 : ℝ), 2]| ≤ 700 := by
    intro x hx
    have hmean : rowMean [(0 : ℝ), 2] = 1 := by
      unfold rowMean
      norm_num
    rcases List.mem_pair.mp hx with rfl | rfl <;>
      rw [hmean] <;> norm_num
  exact ⟨hb, claim_C4_stabilized_softmax_eq_plain [(0 : ℝ), 2] hb⟩

/-! ### Helper lemmas for the long-form builder -/

/-- `Except` bind on a success. -/
@[simp] lemma exceptOkBind {ε β γ : Type} (x : β) (f : β → Except ε γ) :
    (Except.ok x : Except ε β) >>= f = f x := rfl

/-- `Except` bind on a failure. -/
@[simp] lemma exceptErrorBind {ε β γ : Type} (e : ε) (f : β → Except ε γ) :
    (Except.error e : Except ε β) >>= f = .error e := rfl

/-- `mapM` over `Except` succeeds when every element succeeds. -/
lemma mapM_eq_map {ε β γ : Type} (f : β → Except ε γ) (g : β → γ) (l : List β)
    (h : ∀ x ∈ l, f x = .ok (g x)) : l.mapM f = .ok (l.map g) := by
  induction l with
  | nil => rfl
  | cons a t ih =>
    rw [List.mapM_cons, h a (List.mem_cons_self a t),
      ih (fun x hx => h x (List.mem_cons_of_mem a hx))]
    rfl

lemma length_oneHot (n idx : ℕ) : (oneHot (α := α) n idx).length = n := by
  unfold oneHot
  rw [List.length_set, List.length_replicate]

lemma oneHot_getD_self (n idx : ℕ) (h : idx < n) :
    (oneHot (α := α) n idx).getD idx 0 = 1 := by
  unfold oneHot
  rw [List.getD_eq_getElem _ _ (by rw [List.length_set, List.length_replicate]; exact h),
    List.getElem_set_self]

lemma oneHot_getD_ne (n idx j : ℕ) (hj : j < n) (hne : j ≠ idx) :
    (oneHot (α := α) n idx).getD j 0 = 0 := by
  unfold oneHot
  rw [List.getD_eq_getElem _ _ (by rw [List.length_set, List.length_replicate]; exact hj),
    List.getElem_set_of_ne (fun hh => hne hh.symm),
    List.getElem_replicate]

/-- A lookup skips a prefix whose keys all differ from the key sought. -/
lemma lookup_append_of_keys_ne {γ : Type} (l1 l2 : List (String × γ)) (k : String)
    (h : ∀ p ∈ l1, p.1 ≠ k) : List.lookup k (l1 ++ l2) = List.lookup k l2 := by
  induction l1 with
  | nil => rfl
  | cons a t ih =>
    rw [List.cons_append]
    have hne : (k == a.1) = false :=
      beq_eq_false_iff_ne.mpr (fun hh => h a (List.mem_cons_self a t) hh.symm)
    simp only [List.lookup, hne]
    exact ih (fun p hp => h p (List.mem_cons_of_mem a hp))

/-- Looking up a key of a keyed `map` whose values depend only on the key. -/
lemma lookup_map_pair {γ : Type} (l : List String) (f : String → γ) (k : String)
    (hk : k ∈ l) : List.lookup k (l.map (fun g => (g, f g))) = some (f k) := by
  induction l with
  | nil => cases hk
  | cons a t ih =>
    by_cases h : k = a
    · subst h
      simp [List.lookup]
    · have hne : (k == a) = false := beq_eq_false_iff_ne.mpr h
      simp only [List.map_cons, List.lookup, hne]
      exact ih (List.mem_cons.mp hk |>.resolve_left h)

/-- Looking up an entry's key of a keyed `map` over an association list
with `Nodup` keys returns that entry's value. -/
lemma lookup_map_attr {γ δ : Type} (l : List (String × γ)) (F : String × γ → δ)
    (a : String × γ) (ha : a ∈ l) (hnd : (l.map Prod.fst).Nodup) :
    List.lookup a.1 (l.map (fun p => (p.1, F p))) = some (F a) := by
  induction l with
  | nil => cases ha
  | cons b t ih =>
    rw [List.map_cons] at hnd
    rcases List.mem_cons.mp ha with rfl | hat
    · simp [List.lookup]
    · have hb : (a.1 == b.1) = false := by
        refine beq_eq_false_iff_ne.mpr (fun he => ?_)
        exact (List.nodup_cons.mp hnd).1
          (he ▸ List.mem_map.mpr ⟨a, hat, rfl⟩)
      simp only [List.map_cons, List.lookup, hb]
      exact ih hat (List.nodup_cons.mp hnd).2

/-- The length of a `flatMap` whose pieces all have length `n`. -/
lemma length_flatMap_const {β γ : Type} (l : List β) (f : β → List γ) (n : ℕ)
    (h : ∀ x ∈ l, (f x).length = n) : (l.flatMap f).length = n * l.length := by
  induction l with
  | nil => simp
  | cons a t ih =>
    rw [List.flatMap_cons, List.length_append, h a (List.mem_cons_self a t),
      ih (fun x hx => h x (List.mem_cons_of_mem a hx))]
    simp [Nat.mul_succ, Nat.add_comm]

/-! ### Closed forms of the columns built by `long_form_data` -/

/-- The `choice` column of the long-form dataframe. -/
def lfdChoiceCol (mode_table : List (ℤ × ModeRow α)) (modes : List String)
    (y_true : Bool) : List α :=
  mode_table.flatMap (fun p =>
    if y_true then oneHot modes.length (modes.indexOf p.2.mode)
    else List.replicate modes.length 0)

/-- One alternative-specific column of the long-form dataframe. -/
def lfdAltCol (mode_table : List (ℤ × ModeRow α)) (srcs : List String) : List α :=
  mode_table.flatMap (fun p => srcs.map (fun s => rowGetD p.2 s))

/-- One generic (case-specific) column of the long-form dataframe. -/
def lfdGenCol (mode_table : List (ℤ × ModeRow α)) (nalt : ℕ) (g : String) : List α :=
  mode_table.flatMap (fun p => List.replicate nalt ((List.lookup g p.2.attrs).getD 0))

/-- The full long-form dataframe in closed form. -/
def lfdDF (mode_table : List (ℤ × ModeRow α))
    (alt_attrs : List (String × List String)) (generic_attrs : List String)
    (modes : List String) (y_true : Bool) : LongDF α :=
  { group := mode_table.flatMap (fun p => List.replicate modes.length p.1)
    alt := mode_table.flatMap (fun _ => modes)
    choice := lfdChoiceCol mode_table modes y_true
    cols := alt_attrs.map (fun as => (as.1, lfdAltCol mode_table as.2))
      ++ generic_attrs.map (fun g => (g, lfdGenCol mode_table modes.length g)) }

/-- Success of `long_form_data`: when every row's mode is a listed mode,
every generic attribute is present in every row, and every `alt_attrs`
entry lists one source column per alternative, the builder returns the
closed-form dataframe. -/
lemma long_form_data_ok (mode_table : List (ℤ × ModeRow α))
    (alt_attrs : List (String × List String)) (generic_attrs : List String)
    (modes : List String) (y_true : Bool)
    (hmode : ∀ p ∈ mode_table, p.2.mode ∈ modes)
    (hgen : ∀ p ∈ mode_table, ∀ g ∈ generic_attrs, (List.lookup g p.2.attrs).isSome)
    (halt : ∀ as ∈ alt_attrs, as.2.length = modes.length) :
    long_form_data mode_table alt_attrs generic_attrs modes y_true
      = .ok (lfdDF mode_table alt_attrs generic_attrs modes y_true) := by
  have hchoice : mode_table.mapM (fun p => choiceBlock modes y_true p.2)
      = .ok (mode_table.map (fun p =>
          if y_true then oneHot modes.length (modes.indexOf p.2.mode)
          else List.replicate modes.length 0)) := by
    apply mapM_eq_map
    intro p hp
    unfold choiceBlock
    cases y_true with
    | true => simp [hmode p hp]
    | false => simp
  have hgcol : ∀ g ∈ generic_attrs,
      genericCol (α := α) modes.length mode_table g
        = .ok (lfdGenCol mode_table modes.length g) := by
    intro g hg
    unfold genericCol lfdGenCol
    rw [mapM_eq_map _
      (fun p => List.replicate modes.length ((List.lookup g p.2.attrs).getD 0)) _
      (fun p hp => by
        obtain ⟨v, hv⟩ := Option.isSome_iff_exists.mp (hgen p hp g hg)
        simp [hv])]
    simp [List.flatMap_def]
  have hgcols : generic_attrs.mapM (fun g =>
      (fun c => (g, c)) <$> genericCol (α := α) modes.length mode_table g)
      = .ok (generic_attrs.map (fun g => (g, lfdGenCol mode_table modes.length g))) := by
    apply mapM_eq_map
    intro g hg
    rw [hgcol g hg]
    rfl
  have hlens :
      (lfdDF (α := α) mode_table alt_attrs generic_attrs modes y_true).alt.length
        = (lfdDF (α := α) mode_table alt_attrs generic_attrs modes y_true).group.length
      ∧ (lfdDF (α := α) mode_table alt_attrs generic_attrs modes y_true).choice.length
        = (lfdDF (α := α) mode_table alt_attrs generic_attrs modes y_true).group.length
      ∧ ∀ c ∈ (lfdDF (α := α) mode_table alt_attrs generic_attrs modes y_true).cols,
          c.2.length
            = (lfdDF (α := α) mode_table alt_attrs generic_attrs modes y_true).group.length := by
    have hg : (lfdDF (α := α) mode_table alt_attrs generic_attrs modes y_true).group.length
        = modes.length * mode_table.length :=
      length_flatMap_const _ _ _ (fun x _ => List.length_replicate _ _)
    refine ⟨?_, ?_, ?_⟩
    · rw [hg]
      exact length_flatMap_const _ _ _ (fun x _ => rfl)
    · rw [hg]
      apply length_flatMap_const
      intro x _
      cases y_true with
      | true => simp [length_oneHot]
      | false => simp
    · intro c hc
      rw [hg]
      rcases List.mem_append.mp hc with hc1 | hc2
      · obtain ⟨as, has, rfl⟩ := List.mem_map.mp hc1
        apply length_flatMap_const
        intro x _
        rw [List.length_map]
        exact halt as has
      · obtain ⟨g, hgm, rfl⟩ := List.mem_map.mp hc2
        exact length_flatMap_const _ _ _ (fun x _ => List.length_replicate _ _)
  simp only [long_form_data, hchoice, hgcols, exceptOkBind]
  have hR : ({ group := mode_table.flatMap (fun p => List.replicate modes.length p.1)
               alt := mode_table.flatMap (fun _ => modes)
               choice := (mode_table.map (fun p =>
                 if y_true = true then oneHot modes.length (List.indexOf p.2.mode modes)
                 else List.replicate modes.length 0)).flatten
               cols := (alt_attrs.map (fun as =>
                   (as.1, mode_table.flatMap (fun p =>
                     as.2.map (fun s => rowGetD p.2 s)))))
                 ++ generic_attrs.map (fun g =>
                   (g, lfdGenCol mode_table modes.length g)) } : LongDF α)
      = lfdDF mode_table alt_attrs generic_attrs modes y_true := by
    simp only [lfdDF, lfdChoiceCol, lfdAltCol, List.flatMap_def]
  exact Eq.trans (if_pos hlens) (congrArg Except.ok hR)

/-- A lookup stays in a prefix where it already succeeds. -/
lemma lookup_append_left_of_isSome {γ : Type} (l1 l2 : List (String × γ)) (k : String)
    (h : (List.lookup k l1).isSome) : List.lookup k (l1 ++ l2) = List.lookup k l1 := by
  induction l1 with
  | nil => simp [List.lookup] at h
  | cons a t ih =>
    rw [List.cons_append]
    by_cases hk : (k == a.1) = true
    · simp only [List.lookup, hk]
    · have hk' : (k == a.1) = false := Bool.eq_false_iff.mpr hk
      simp only [List.lookup, hk'] at h ⊢
      exact ih h

/-- C2: on a mode table of `R` rows with `N` modes (each row's mode listed,
each generic attribute present, each `alt_attrs` entry naming one source
per alternative, distinct column keys), `long_form_data` with
`y_true = True` returns a dataframe with `N * R` rows in which each input
row contributes `N` consecutive rows — `group` repeats the row index `N`
times, `alt` runs through the modes in list order, each generic column
repeats the row's value `N` times — and the `choice` block of each row is
one-hot: `1` exactly at the position of the row's mode in `modes`, `0` at
every other position. -/
theorem claim_C2_long_form_data_shape (mode_table : List (ℤ × ModeRow α))
    (alt_attrs : List (String × List String)) (generic_attrs : List String)
    (modes : List String)
    (hmode : ∀ p ∈ mode_table, p.2.mode ∈ modes)
    (hgen : ∀ p ∈ mode_table, ∀ g ∈ generic_attrs, (List.lookup g p.2.attrs).isSome)
    (halt : ∀ as ∈ alt_attrs, as.2.length = modes.length)
    (hnd : ((alt_attrs.map Prod.fst) ++ generic_attrs).Nodup) :
    ∃ df : LongDF α,
      long_form_data mode_table alt_attrs generic_attrs modes true = .ok df
      ∧ df.group.length = modes.length * mode_table.length
      ∧ df.group = mode_table.flatMap (fun p => List.replicate modes.length p.1)
      ∧ df.alt = mode_table.flatMap (fun _ => modes)
      ∧ df.choice = mode_table.flatMap (fun p =>
          oneHot modes.length (modes.indexOf p.2.mode))
      ∧ (∀ g ∈ generic_attrs, List.lookup g df.cols
          = some (lfdGenCol mode_table modes.length g))
      ∧ (∀ p ∈ mode_table,
          (oneHot (α := α) modes.length (modes.indexOf p.2.mode)).getD
              (modes.indexOf p.2.mode) 0 = 1
          ∧ ∀ j, j < modes.length → j ≠ modes.indexOf p.2.mode →
              (oneHot (α := α) modes.length (modes.indexOf p.2.mode)).getD j 0 = 0) := by
  refine ⟨lfdDF mode_table alt_attrs generic_attrs modes true,
    long_form_data_ok mode_table alt_attrs generic_attrs modes true hmode hgen halt,
    ?_, rfl, rfl, ?_, ?_, ?_⟩
  · exact length_flatMap_const _ _ _ (fun x _ => List.length_replicate _ _)
  · simp [lfdDF, lfdChoiceCol]
  · intro g hg
    have hdisj := (List.nodup_append.mp hnd).2.2
    show List.lookup g
      (alt_attrs.map (fun as => (as.1, lfdAltCol mode_table as.2))
        ++ generic_attrs.map (fun g => (g, lfdGenCol mode_table modes.length g)))
      = _
    rw [lookup_append_of_keys_ne _ _ _ (by
      intro p hp
      obtain ⟨as, has, rfl⟩ := List.mem_map.mp hp
      intro he
      exact hdisj (he ▸ List.mem_map.mpr ⟨as, has, rfl⟩) hg)]
    exact lookup_map_pair generic_attrs _ g hg
  · intro p hp
    have hidx : modes.indexOf p.2.mode < modes.length :=
      List.indexOf_lt_length.mpr (hmode p hp)
    exact ⟨oneHot_getD_self _ _ hidx, fun j hj hne => oneHot_getD_ne _ _ _ hj hne⟩

/-- Concrete fixtures for the C2 witness: a two-row mode table. -/
def w2Table : List (ℤ × ModeRow ℚ) :=
  [(0, ⟨"walk", [("inc", 5)]⟩), (1, ⟨"drive", [("inc", 7)]⟩)]

def w2Alt : List (String × List String) := [("time", ["t_drive", "t_walk"])]

def w2Gen : List String := ["inc"]

def w2Modes : List String := ["drive", "walk"]

/-- Witness for C2 at a concrete two-row, two-mode table. -/
theorem claim_C2_long_form_data_shape_witness :
    ((∀ p ∈ w2Table, p.2.mode ∈ w2Modes)
      ∧ (∀ p ∈ w2Table, ∀ g ∈ w2Gen, (List.lookup g p.2.attrs).isSome)
      ∧ (∀ as ∈ w2Alt, as.2.length = w2Modes.length)
      ∧ ((w2Alt.map Prod.fst) ++ w2Gen).Nodup)
    ∧ ∃ df : LongDF ℚ,
        long_form_data w2Table w2Alt w2Gen w2Modes true = .ok df
        ∧ df.group.length = w2Modes.length * w2Table.length
        ∧ df.group = w2Table.flatMap (fun p => List.replicate w2Modes.length p.1)
        ∧ df.alt = w2Table.flatMap (fun _ => w2Modes)
        ∧ df.choice = w2Table.flatMap (fun p =>
            oneHot w2Modes.length (w2Modes.indexOf p.2.mode))
        ∧ (∀ g ∈ w2Gen, List.lookup g df.cols
            = some (lfdGenCol w2Table w2Modes.length g))
        ∧ (∀ p ∈ w2Table,
            (oneHot (α := ℚ) w2Modes.length (w2Modes.indexOf p.2.mode)).getD
                (w2Modes.indexOf p.2.mode) 0 = 1
            ∧ ∀ j, j < w2Modes.length → j ≠ w2Modes.indexOf p.2.mode →
                (oneHot (α := ℚ) w2Modes.length (w2Modes.indexOf p.2.mode)).getD j 0 = 0) :=
  ⟨⟨by decide, by decide, by decide, by decide⟩,
    claim_C2_long_form_data_shape w2Table w2Alt w2Gen w2Modes
      (by decide) (by decide) (by decide) (by decide)⟩


/-- C9: a source column named in an `alt_attrs` value that is absent from
a row does not make `long_form_data` fail: the builder succeeds and writes
the `row.get(row_attr, 0)` default, i.e. the value `0`, in the
corresponding long-form cell. -/
theorem claim_C9_long_form_data_missing_source (mode_table : List (ℤ × ModeRow α))
    (alt_attrs : List (String × List String)) (generic_attrs : List String)
    (modes : List String) (y_true : Bool)
    (hmode : ∀ p ∈ mode_table, p.2.mode ∈ modes)
    (hgen : ∀ p ∈ mode_table, ∀ g ∈ generic_attrs, (List.lookup g p.2.attrs).isSome)
    (halt : ∀ as ∈ alt_attrs, as.2.length = modes.length)
    (hnd : (alt_attrs.map Prod.fst).Nodup) :
    ∃ df : LongDF α,
      long_form_data mode_table alt_attrs generic_attrs modes y_true = .ok df
      ∧ (∀ as ∈ alt_attrs, List.lookup as.1 df.cols
          = some (lfdAltCol mode_table as.2))
      ∧ (∀ as ∈ alt_attrs, lfdAltCol (α := α) mode_table as.2
          = mode_table.flatMap (fun p => as.2.map (fun s => rowGetD p.2 s)))
      ∧ (∀ r : ModeRow α, ∀ s : String, List.lookup s r.attrs = none →
          rowGetD r s = 0) := by
  refine ⟨lfdDF mode_table alt_attrs generic_attrs modes y_true,
    long_form_data_ok mode_table alt_attrs generic_attrs modes y_true hmode hgen halt,
    ?_, fun as _ => rfl, fun r s h => by simp [rowGetD, h]⟩
  intro as has
  show List.lookup as.1
    (alt_attrs.map (fun a => (a.1, lfdAltCol mode_table a.2))
      ++ generic_attrs.map (fun g => (g, lfdGenCol mode_table modes.length g)))
    = _
  rw [lookup_append_left_of_isSome _ _ _ (by
    rw [lookup_map_attr alt_attrs (fun a => lfdAltCol (α := α) mode_table a.2) as has hnd]
    rfl)]
  exact lookup_map_attr alt_attrs (fun a => lfdAltCol (α := α) mode_table a.2) as has hnd

/-- Concrete fixture for the C9 witness: one row lacking `"t_walk"`. -/
def w9Table : List (ℤ × ModeRow ℚ) := [(0, ⟨"drive", [("t_drive", 10), ("inc", 5)]⟩)]

/-- Witness for C9: one row lacking the `"t_walk"` source column; the
builder succeeds and the absent cell reads `0`. -/
theorem claim_C9_long_form_data_missing_source_witness :
    ((∀ p ∈ w9Table, p.2.mode ∈ w2Modes)
      ∧ (∀ p ∈ w9Table, ∀ g ∈ w2Gen, (List.lookup g p.2.attrs).isSome)
      ∧ (∀ as ∈ w2Alt, as.2.length = w2Modes.length)
      ∧ (w2Alt.map Prod.fst).Nodup)
    ∧ ∃ df : LongDF ℚ,
        long_form_data w9Table w2Alt w2Gen w2Modes true = .ok df
        ∧ (∀ as ∈ w2Alt, List.lookup as.1 df.cols
            = some (lfdAltCol w9Table as.2))
        ∧ (∀ as ∈ w2Alt, lfdAltCol (α := ℚ) w9Table as.2
            = w9Table.flatMap (fun p => as.2.map (fun s => rowGetD p.2 s)))
        ∧ (∀ r : ModeRow ℚ, ∀ s : String, List.lookup s r.attrs = none →
            rowGetD r s = 0) :=
  ⟨⟨by decide, by decide, by decide, by decide⟩,
    claim_C9_long_form_data_missing_source w9Table w2Alt w2Gen w2Modes true
      (by decide) (by decide) (by decide) (by decide)⟩


/-! ### C7: the fold slices of `logit_cv` -/

/-- Membership in a contiguous slice of a duplicate-free list, in terms of
the element's index. -/
lemma mem_slice_iff (l : List ℤ) (hnd : l.Nodup) (a b : ℕ) (c : ℤ) :
    c ∈ (l.drop a).take b
      ↔ c ∈ l ∧ a ≤ l.indexOf c ∧ l.indexOf c < a + b := by
  constructor
  · intro hc
    obtain ⟨k, hk, hval⟩ := List.mem_iff_getElem.mp hc
    have hk2 := hk
    rw [List.length_take, lt_inf_iff, List.length_drop] at hk2
    rw [List.getElem_take, List.getElem_drop] at hval
    have haklen : a + k < l.length := by omega
    have hmem : c ∈ l := hval ▸ List.getElem_mem haklen
    have hidx : l.indexOf c = a + k := by
      rw [← hval]
      exact List.indexOf_getElem hnd (a + k) haklen
    exact ⟨hmem, by omega, by omega⟩
  · rintro ⟨hcl, h1, h2⟩
    have hidxlen : l.indexOf c < l.length := List.indexOf_lt_length.mpr hcl
    have hk : l.indexOf c - a < ((l.drop a).take b).length := by
      rw [List.length_take, lt_inf_iff, List.length_drop]
      omega
    refine List.mem_iff_getElem.mpr ⟨l.indexOf c - a, hk, ?_⟩
    rw [List.getElem_take, List.getElem_drop]
    simp only [Nat.add_sub_cancel' h1]
    exact List.getElem_indexOf hidxlen

/-- The `i`-th fold slice in closed form. -/
lemma cvCaseSlices_getD (l : List ℤ) (nfold i : ℕ) (hi : i < nfold) :
    (cvCaseSlices l nfold).getD i []
      = (l.drop (i * (l.length / nfold))).take (l.length / nfold) := by
  unfold cvCaseSlices
  rw [List.getD_eq_getElem _ _ (by simp [hi]), List.getElem_map, List.getElem_range]

/-- `idx < idx / ns * ns + ns` for positive `ns`. -/
lemma lt_div_mul_add (idx ns : ℕ) (hns : 0 < ns) : idx < idx / ns * ns + ns := by
  calc idx = ns * (idx / ns) + idx % ns := (Nat.div_add_mod idx ns).symm
    _ < ns * (idx / ns) + ns := by
        have := Nat.mod_lt idx hns
        omega
    _ = idx / ns * ns + ns := by rw [Nat.mul_comm]

/-- C7 (amended): the fold slices of `logit_cv` are pairwise disjoint, and
a (shuffled, duplicate-free) case ID belongs to some fold exactly when its
shuffle position is below `nfold * (ncs / nfold)`; hence when `nfold`
divides the number of cases the folds partition the cases (each case in
exactly one fold), and otherwise the last `ncs mod nfold` shuffled cases
belong to no fold.  The fold datasets are the rows whose `group` lies in
the corresponding slice. -/
theorem claim_C7_cv_folds_amended (data : List (LRow α)) (caseIDs : List ℤ)
    (nfold : ℕ) (hids : caseIDs.Nodup) :
    (∀ i j, i < nfold → j < nfold → i ≠ j →
      ∀ c, c ∈ (cvCaseSlices caseIDs nfold).getD i [] →
        c ∉ (cvCaseSlices caseIDs nfold).getD j [])
    ∧ (∀ c ∈ caseIDs,
        (∃ i, i < nfold ∧ c ∈ (cvCaseSlices caseIDs nfold).getD i [])
          ↔ caseIDs.indexOf c < nfold * (caseIDs.length / nfold))
    ∧ (nfold ∣ caseIDs.length → ∀ c ∈ caseIDs,
        ∃! i, i < nfold ∧ c ∈ (cvCaseSlices caseIDs nfold).getD i [])
    ∧ (∀ i, i < nfold → (cvData data caseIDs nfold).getD i []
        = data.filter (fun r => decide (r.group ∈ (cvCaseSlices caseIDs nfold).getD i []))) := by
  have hdisj : ∀ i j, i < nfold → j < nfold → i ≠ j →
      ∀ c, c ∈ (cvCaseSlices caseIDs nfold).getD i [] →
        c ∉ (cvCaseSlices caseIDs nfold).getD j [] := by
    intro i j hi hj hne c hci hcj
    rw [cvCaseSlices_getD _ _ _ hi, mem_slice_iff _ hids] at hci
    rw [cvCaseSlices_getD _ _ _ hj, mem_slice_iff _ hids] at hcj
    have hij : i * (caseIDs.length / nfold) + (caseIDs.length / nfold)
          ≤ j * (caseIDs.length / nfold)
        ∨ j * (caseIDs.length / nfold) + (caseIDs.length / nfold)
          ≤ i * (caseIDs.length / nfold) := by
      rcases lt_or_gt_of_ne hne with h | h
      · left
        have := Nat.mul_le_mul_right (caseIDs.length / nfold) (show i + 1 ≤ j by omega)
        rwa [Nat.succ_mul] at this
      · right
        have := Nat.mul_le_mul_right (caseIDs.length / nfold) (show j + 1 ≤ i by omega)
        rwa [Nat.succ_mul] at this
    obtain ⟨-, hci1, hci2⟩ := hci
    obtain ⟨-, hcj1, hcj2⟩ := hcj
    omega
  have hcover : ∀ c ∈ caseIDs,
      (∃ i, i < nfold ∧ c ∈ (cvCaseSlices caseIDs nfold).getD i [])
        ↔ caseIDs.indexOf c < nfold * (caseIDs.length / nfold) := by
    intro c hc
    constructor
    · rintro ⟨i, hi, hci⟩
      rw [cvCaseSlices_getD _ _ _ hi, mem_slice_iff _ hids] at hci
      obtain ⟨-, h1, h2⟩ := hci
      have hle := Nat.mul_le_mul_right (caseIDs.length / nfold) (show i + 1 ≤ nfold by omega)
      rw [Nat.succ_mul] at hle
      omega
    · intro hidx
      have hns : 0 < caseIDs.length / nfold := by
        rcases Nat.eq_zero_or_pos (caseIDs.length / nfold) with h0 | h
        · rw [h0, Nat.mul_zero] at hidx
          omega
        · exact h
      refine ⟨caseIDs.indexOf c / (caseIDs.length / nfold), ?_, ?_⟩
      · exact (Nat.div_lt_iff_lt_mul hns).mpr hidx
      · rw [cvCaseSlices_getD _ _ _ ((Nat.div_lt_iff_lt_mul hns).mpr hidx),
          mem_slice_iff _ hids]
        exact ⟨hc, Nat.div_mul_le_self _ _, lt_div_mul_add _ _ hns⟩
  refine ⟨hdisj, hcover, ?_, ?_⟩
  · intro hdvd c hc
    have hlen : nfold * (caseIDs.length / nfold) = caseIDs.length :=
      Nat.mul_div_cancel' hdvd
    have hidx : caseIDs.indexOf c < caseIDs.length := List.indexOf_lt_length.mpr hc
    obtain ⟨i, hi, hci⟩ := (hcover c hc).mpr (by omega)
    refine ⟨i, ⟨hi, hci⟩, ?_⟩
    rintro j ⟨hj, hcj⟩
    by_contra hne
    exact hdisj j i hj hi hne c hcj hci
  · intro i hi
    unfold cvData
    rw [List.getD_eq_getElem _ _ (by simp [cvCaseSlices, hi]), List.getElem_map,
      List.getD_eq_getElem _ _ (by simp [cvCaseSlices, hi])]

/-- Witness for the amended C7, at five cases and two folds (one case,
the fifth, is covered by no fold since `5 mod 2 = 1`). -/
theorem claim_C7_cv_folds_amended_witness :
    ([(10 : ℤ), 20, 30, 40, 50].Nodup)
    ∧ ((∀ i j, i < 2 → j < 2 → i ≠ j →
        ∀ c, c ∈ (cvCaseSlices [(10 : ℤ), 20, 30, 40, 50] 2).getD i [] →
          c ∉ (cvCaseSlices [(10 : ℤ), 20, 30, 40, 50] 2).getD j [])
      ∧ (∀ c ∈ [(10 : ℤ), 20, 30, 40, 50],
          (∃ i, i < 2 ∧ c ∈ (cvCaseSlices [(10 : ℤ), 20, 30, 40, 50] 2).getD i [])
            ↔ [(10 : ℤ), 20, 30, 40, 50].indexOf c
                < 2 * ([(10 : ℤ), 20, 30, 40, 50].length / 2))
      ∧ (2 ∣ [(10 : ℤ), 20, 30, 40, 50].length →
          ∀ c ∈ [(10 : ℤ), 20, 30, 40, 50],
          ∃! i, i < 2 ∧ c ∈ (cvCaseSlices [(10 : ℤ), 20, 30, 40, 50] 2).getD i [])
      ∧ (∀ i, i < 2 → (cvData ([] : List (LRow ℚ)) [(10 : ℤ), 20, 30, 40, 50] 2).getD i []
          = ([] : List (LRow ℚ)).filter (fun r =>
              decide (r.group ∈ (cvCaseSlices [(10 : ℤ), 20, 30, 40, 50] 2).getD i [])))) :=
  ⟨by decide,
    claim_C7_cv_folds_amended ([] : List (LRow ℚ)) [(10 : ℤ), 20, 30, 40, 50] 2 (by decide)⟩

/-- Fixture for the C7 counterexample: three one-row cases. -/
def c7Data : List (LRow ℚ) :=
  [⟨10, "drive", 1, []⟩, ⟨20, "drive", 1, []⟩, ⟨30, "drive", 1, []⟩]

/-- C7 (counterexample to the claim as stated): with three cases and
`nfold = 2` (and the identity shuffle), the fold datasets of `logit_cv` do
NOT cover every case: the case with ID `30` belongs to no fold, because
the slices only cover `nfold * int(ncs / nfold) = 2` shuffled case IDs. -/
theorem claim_C7_cv_folds_counterexample :
    ¬ (∀ c ∈ groupsOf c7Data, ∃ i, i < 2 ∧
        ∃ r ∈ (cvData c7Data (groupsOf c7Data) 2).getD i [], r.group = c) := by
  decide

/-! ### C3/C10: behaviour of the utility loop of `asclogit_pred` -/

/-- A parameter the utility loop applies without failing and without the
early `return None`: an alternative-specific variable naming a column of
the dataframe's length, or a case-specific `"X for alt"` with a listed
alternative whose dummy has the dataframe's length and `X` either `'ASC'`
or a column of the dataframe's length. -/
def GoodParam (df : PredDF α) (dummies : List (String × List α))
    (flags : List String) (pr : String × α) : Prop :=
  ((flags.any (fun f => strEndsWith pr.1 f)) = false
    ∧ ∃ c, df.col? pr.1 = some c ∧ c.length = df.nrows)
  ∨ ((flags.any (fun f => strEndsWith pr.1 f)) = true
    ∧ ∃ main altn, pySplitOn pr.1 " for " = [main, altn]
      ∧ (∃ dummy, List.lookup altn dummies = some dummy ∧ dummy.length = df.nrows)
      ∧ (main = "ASC" ∨ ∃ c, df.col? main = some c ∧ c.length = df.nrows))

/-- One loop step on an alternative-specific variable. -/
lemma utilLoop_cons_alt (df : PredDF α) (dummies : List (String × List α))
    (flags : List String) (vn : String) (beta : α) (t : List (String × α))
    (u c : List α)
    (hflag : (flags.any (fun f => strEndsWith vn f)) = false)
    (hc : df.col? vn = some c)
    (hlen : u.length = (c.map (fun x => x * beta)).length) :
    utilLoop df dummies flags ((vn, beta) :: t) u
      = utilLoop df dummies flags t
          (List.zipWith (· + ·) u (c.map (fun x => x * beta))) := by
  simp only [utilLoop, hflag, Bool.false_eq_true, not_false_eq_true, if_pos, hc,
    vecAdd, hlen, eq_self_iff_true, if_true, exceptOkBind]

/-- One loop step on an alternative-specific constant (`"ASC for alt"`). -/
lemma utilLoop_cons_asc (df : PredDF α) (dummies : List (String × List α))
    (flags : List String) (vn : String) (beta : α) (t : List (String × α))
    (u dummy : List α) (altn : String)
    (hflag : (flags.any (fun f => strEndsWith vn f)) = true)
    (hsplit : pySplitOn vn " for " = ["ASC", altn])
    (hd : List.lookup altn dummies = some dummy)
    (hlen : u.length = (dummy.map (fun x => x * beta)).length) :
    utilLoop df dummies flags ((vn, beta) :: t) u
      = utilLoop df dummies flags t
          (List.zipWith (· + ·) u (dummy.map (fun x => x * beta))) := by
  simp only [utilLoop, hflag, Bool.true_eq_false, not_true_eq_false, if_neg, hsplit, hd,
    vecAdd, hlen, eq_self_iff_true, if_true, exceptOkBind, if_false]

/-- One loop step on a case-specific variable that is a column. -/
lemma utilLoop_cons_case (df : PredDF α) (dummies : List (String × List α))
    (flags : List String) (vn : String) (beta : α) (t : List (String × α))
    (u dummy c : List α) (main altn : String)
    (hflag : (flags.any (fun f => strEndsWith vn f)) = true)
    (hsplit : pySplitOn vn " for " = [main, altn])
    (hd : List.lookup altn dummies = some dummy)
    (hnasc : main ≠ "ASC")
    (hcol : df.col? main = some c)
    (hcd : c.length = dummy.length)
    (hlen : u.length = ((List.zipWith (· * ·) c dummy).map (fun x => x * beta)).length) :
    utilLoop df dummies flags ((vn, beta) :: t) u
      = utilLoop df dummies flags t
          (List.zipWith (· + ·) u
            ((List.zipWith (· * ·) c dummy).map (fun x => x * beta))) := by
  simp only [utilLoop, hflag, Bool.true_eq_false, not_true_eq_false, if_neg, hsplit, hd,
    hnasc, hcol, vecMul, vecAdd, hcd, hlen, eq_self_iff_true, if_true, exceptOkBind,
    if_false]

/-- One loop step on a case-specific variable that is neither `'ASC'` nor
a column: the loop prints an error and returns `None`. -/
lemma utilLoop_cons_none (df : PredDF α) (dummies : List (String × List α))
    (flags : List String) (vn : String) (beta : α) (t : List (String × α))
    (u dummy : List α) (main altn : String)
    (hflag : (flags.any (fun f => strEndsWith vn f)) = true)
    (hsplit : pySplitOn vn " for " = [main, altn])
    (hd : List.lookup altn dummies = some dummy)
    (hnasc : main ≠ "ASC")
    (hcol : df.col? main = none) :
    utilLoop df dummies flags ((vn, beta) :: t) u = .ok none := by
  simp only [utilLoop, hflag, Bool.true_eq_false, not_true_eq_false, if_neg, hsplit, hd,
    hnasc, hcol, if_false]

/-- The utility loop steps through a prefix of good parameters,
accumulating a utility vector of unchanged length. -/
lemma utilLoop_append (df : PredDF α) (dummies : List (String × List α))
    (flags : List String) (pre l : List (String × α)) (u : List α)
    (hu : u.length = df.nrows)
    (hpre : ∀ pr ∈ pre, GoodParam df dummies flags pr) :
    ∃ u', u'.length = df.nrows
      ∧ utilLoop df dummies flags (pre ++ l) u = utilLoop df dummies flags l u' := by
  induction pre generalizing u with
  | nil => exact ⟨u, hu, rfl⟩
  | cons pr rest ih =>
    have hg := hpre pr (List.mem_cons_self pr rest)
    have hrest : ∀ q ∈ rest, GoodParam df dummies flags q :=
      fun q hq => hpre q (List.mem_cons_of_mem pr hq)
    rcases hg with ⟨hflag, c, hc, hclen⟩ |
      ⟨hflag, main, altn, hsplit, ⟨dummy, hd, hdlen⟩, hmain⟩
    · have hlen : u.length = (c.map (fun x => x * pr.2)).length := by
        rw [List.length_map, hclen, hu]
      obtain ⟨u', hu', heq⟩ := ih (List.zipWith (· + ·) u (c.map (fun x => x * pr.2)))
        (by rw [List.length_zipWith, List.length_map, hclen, hu]; exact min_self _)
        hrest
      refine ⟨u', hu', ?_⟩
      rw [List.cons_append, ← heq, ← utilLoop_cons_alt df dummies flags pr.1 pr.2
        (rest ++ l) u c hflag hc hlen]
    · rcases hmain with hasc | ⟨c, hcol, hclen⟩
      · subst hasc
        have hlen : u.length = (dummy.map (fun x => x * pr.2)).length := by
          rw [List.length_map, hdlen, hu]
        obtain ⟨u', hu', heq⟩ := ih (List.zipWith (· + ·) u (dummy.map (fun x => x * pr.2)))
          (by rw [List.length_zipWith, List.length_map, hdlen, hu]; exact min_self _)
          hrest
        refine ⟨u', hu', ?_⟩
        rw [List.cons_append, ← heq, ← utilLoop_cons_asc df dummies flags pr.1 pr.2
          (rest ++ l) u dummy altn hflag hsplit hd hlen]
      · by_cases hma : main = "ASC"
        · subst hma
          have hlen : u.length = (dummy.map (fun x => x * pr.2)).length := by
            rw [List.length_map, hdlen, hu]
          obtain ⟨u', hu', heq⟩ := ih
            (List.zipWith (· + ·) u (dummy.map (fun x => x * pr.2)))
            (by rw [List.length_zipWith, List.length_map, hdlen, hu]; exact min_self _)
            hrest
          refine ⟨u', hu', ?_⟩
          rw [List.cons_append, ← heq, ← utilLoop_cons_asc df dummies flags pr.1 pr.2
            (rest ++ l) u dummy altn hflag hsplit hd hlen]
        · have hcd : c.length = dummy.length := by rw [hclen, hdlen]
          have hlen : u.length
              = ((List.zipWith (· * ·) c dummy).map (fun x => x * pr.2)).length := by
            rw [List.length_map, List.length_zipWith, hclen, hdlen, hu]
            exact (min_self _).symm
          obtain ⟨u', hu', heq⟩ := ih
            (List.zipWith (· + ·) u
              ((List.zipWith (· * ·) c dummy).map (fun x => x * pr.2)))
            (by rw [List.length_zipWith, ← hlen, hu]; exact min_self _)
            hrest
          refine ⟨u', hu', ?_⟩
          rw [List.cons_append, ← heq, ← utilLoop_cons_case df dummies flags pr.1 pr.2
            (rest ++ l) u dummy c main altn hflag hsplit hd hma hcol hcd hlen]

lemma chunksOf_nil (n : ℕ) : chunksOf n ([] : List β) = [] := by
  unfold chunksOf
  simp

/-- A flat list of length `m * n` reshapes into `m` rows of length `n`. -/
lemma chunksOf_spec {β : Type} (n : ℕ) (hn : 0 < n) :
    ∀ (m : ℕ) (l : List β), l.length = m * n →
      (chunksOf n l).length = m ∧ ∀ r ∈ chunksOf n l, r.length = n := by
  intro m
  induction m with
  | zero =>
    intro l hl
    have hl0 : l = [] := List.length_eq_zero.mp (by simpa using hl)
    subst hl0
    rw [chunksOf_nil]
    exact ⟨rfl, fun r hr => absurd hr (List.not_mem_nil r)⟩
  | succ m ih =>
    intro l hl
    rw [Nat.succ_mul] at hl
    unfold chunksOf
    rw [dif_neg (by push_neg; exact ⟨by omega, by omega⟩)]
    have hdrop : (l.drop n).length = m * n := by rw [List.length_drop]; omega
    obtain ⟨ih1, ih2⟩ := ih (l.drop n) hdrop
    refine ⟨by rw [List.length_cons, ih1], ?_⟩
    intro r hr
    rcases List.mem_cons.mp hr with rfl | hr2
    · rw [List.length_take]
      exact inf_eq_left.mpr (by omega)
    · exact ih2 r hr2

/-- Reshaping the flattening of rows of length `n` recovers the rows. -/
lemma chunksOf_flatten {β : Type} (n : ℕ) (hn : 0 < n) (rows : List (List β))
    (h : ∀ r ∈ rows, r.length = n) : chunksOf n rows.flatten = rows := by
  induction rows with
  | nil => exact chunksOf_nil n
  | cons r t ih =>
    have hr : r.length = n := h r (List.mem_cons_self r t)
    rw [List.flatten_cons]
    unfold chunksOf
    rw [dif_neg (by
      push_neg
      refine ⟨by omega, ?_⟩
      rw [List.length_append]
      omega)]
    congr 1
    · rw [← hr, List.take_left]
    · have hd : (r ++ t.flatten).drop n = t.flatten := by rw [← hr, List.drop_left]
      rw [hd]
      exact ih (fun q hq => h q (List.mem_cons_of_mem r hq))

/-- The flattening of rows of constant length `n`. -/
lemma length_flatten_const {β : Type} (l : List (List β)) (n : ℕ)
    (h : ∀ r ∈ l, r.length = n) : l.flatten.length = l.length * n := by
  induction l with
  | nil => simp
  | cons r t ih =>
    rw [List.flatten_cons, List.length_append, h r (List.mem_cons_self r t),
      ih (fun q hq => h q (List.mem_cons_of_mem r hq)), List.length_cons,
      Nat.succ_mul]
    omega

/-- A normalized row sums to `1` when its total is nonzero. -/
lemma normalizeRow_sum (erow : List α) (hS : erow.sum ≠ 0) :
    (normalizeRow erow).sum = 1 := by
  unfold normalizeRow
  have hrw : erow.map (fun e => e / erow.sum)
      = erow.map (fun e => e * (erow.sum)⁻¹) := by
    simp [div_eq_mul_inv]
  rw [hrw, List.sum_map_mul_right, List.map_id', mul_inv_cancel₀ hS]

/-- The success path of `asclogit_pred`: with positive `ex`, at least one
case, at least one alternative, each case holding one row per alternative,
and every fitted parameter resolvable, the function returns the triple
`(p, y, v_raw)` where `p` has one row per case, one column per
alternative, strictly positive entries and unit row sums. -/
lemma asclogit_pred_ok (df : PredDF α) (params : List (String × α))
    (method : PredMethod) (alts : List String) (ex : α → α)
    (randPick : List α → ℕ)
    (hex : ∀ x, 0 < ex x)
    (hnc : 0 < df.ids.dedup.length)
    (hna : 0 < alts.length)
    (hrows : df.nrows = df.ids.dedup.length * alts.length)
    (hgood : ∀ pr ∈ params, GoodParam df (predDummies df alts) (predFlags alts) pr) :
    ∃ p y v_raw,
      asclogit_pred df params method alts ex randPick
        = .ok (PredReturn.tuple3 p y v_raw)
      ∧ p.length = df.ids.dedup.length
      ∧ ∀ row ∈ p, row.length = alts.length
          ∧ (∀ q ∈ row, 0 < q) ∧ row.sum = 1 := by
  obtain ⟨u, hu, hloop⟩ := utilLoop_append df (predDummies df alts) (predFlags alts)
    params [] (List.replicate df.nrows (0 : α)) (by simp) hgood
  rw [List.append_nil] at hloop
  have hulen : u.length = df.ids.dedup.length * alts.length := by rw [hu, hrows]
  have hdiv : u.length / df.ids.dedup.length = alts.length := by
    rw [hulen, Nat.mul_div_cancel_left _ hnc]
  have hvspec := chunksOf_spec alts.length hna df.ids.dedup.length u hulen
  set v_raw := chunksOf alts.length u with hvraw
  set p2 := (v_raw.map (fun row => (clipRow (centerRow row)).map ex)).map normalizeRow
    with hp2
  have hp2len : p2.length = df.ids.dedup.length := by
    rw [hp2, List.length_map, List.length_map, hvspec.1]
  have hp2rows : ∀ row ∈ p2, row.length = alts.length := by
    intro row hrow
    rw [hp2] at hrow
    obtain ⟨er, her, rfl⟩ := List.mem_map.mp hrow
    obtain ⟨vr, hvr, rfl⟩ := List.mem_map.mp her
    simp only [normalizeRow, clipRow, centerRow, List.length_map]
    exact hvspec.2 vr hvr
  have hp2flat : p2.flatten.length = df.ids.dedup.length * alts.length := by
    rw [length_flatten_const p2 alts.length hp2rows, hp2len]
  have hguard1 : ¬ (df.ids.dedup.length = 0
      ∨ ¬ df.ids.dedup.length ∣ u.length) := by
    push_neg
    exact ⟨by omega, by rw [hulen]; exact dvd_mul_right _ _⟩
  have hguard2 : ¬ (alts.length = 0 ∨ ¬ alts.length ∣ p2.flatten.length) := by
    push_neg
    exact ⟨by omega, by rw [hp2flat]; exact dvd_mul_left _ _⟩
  have hchunkflat : chunksOf alts.length p2.flatten = p2 :=
    chunksOf_flatten alts.length hna p2 hp2rows
  refine ⟨p2,
    (match method with
      | PredMethod.max => some (p2.map argmaxIdx)
      | PredMethod.random => some (p2.map randPick)
      | PredMethod.nonePred => none), v_raw, ?_, hp2len, ?_⟩
  · have hloop' : utilLoop df (predDummies df alts) (predFlags alts) params
        (List.replicate df.nrows (0 : α)) = .ok (some u) := by
      rw [hloop]
      rfl
    simp only [asclogit_pred, hloop', exceptOkBind]
    rw [if_neg hguard1]
    simp only [hdiv, ← hvraw, ← hp2]
    rw [if_neg hguard2, hchunkflat]
  · intro row hrow
    rw [hp2] at hrow
    obtain ⟨er, her, rfl⟩ := List.mem_map.mp hrow
    obtain ⟨vr, hvr, rfl⟩ := List.mem_map.mp her
    have herpos : ∀ q ∈ (clipRow (centerRow vr)).map ex, 0 < q := by
      intro q hq
      obtain ⟨x, _, rfl⟩ := List.mem_map.mp hq
      exact hex x
    have herlen : ((clipRow (centerRow vr)).map ex).length = alts.length := by
      simp only [clipRow, centerRow, List.length_map]
      exact hvspec.2 vr hvr
    have herneq : (clipRow (centerRow vr)).map ex ≠ [] := by
      intro hnil
      rw [hnil] at herlen
      simp at herlen
      omega
    have hsumpos : 0 < ((clipRow (centerRow vr)).map ex).sum :=
      List.sum_pos _ herpos herneq
    refine ⟨?_, ?_, normalizeRow_sum _ (ne_of_gt hsumpos)⟩
    · rw [normalizeRow, List.length_map, herlen]
    · intro q hq
      rw [normalizeRow] at hq
      obtain ⟨e, he, rfl⟩ := List.mem_map.mp hq
      exact div_pos (herpos e he) hsumpos

/-- C3 (counterexample to the claim as stated): a dataframe satisfying the
claim's hypothesis — every case-specific variable in the params exists as
a column (vacuously: the only fitted parameter, `"time"`, is
alternative-specific) — on which `asclogit_pred` nevertheless returns no
probability matrix: the missing alternative-specific column raises
`KeyError`. -/
theorem claim_C3_asclogit_pred_counterexample :
    asclogit_pred (α := ℝ) ⟨[0, 0], []⟩ [("time", 1)] PredMethod.max
      ["drive", "walk"] Real.exp (fun _ => 0) = .error .keyError
    ∧ ¬ ∃ p y v_raw, asclogit_pred (α := ℝ) ⟨[0, 0], []⟩ [("time", 1)] PredMethod.max
        ["drive", "walk"] Real.exp (fun _ => 0) = .ok (PredReturn.tuple3 p y v_raw) := by
  constructor
  · rfl
  · rintro ⟨p, y, v, h⟩
    rw [show asclogit_pred (α := ℝ) ⟨[0, 0], []⟩ [("time", 1)] PredMethod.max
        ["drive", "walk"] Real.exp (fun _ => 0) = .error .keyError from rfl] at h
    cases h

/-- C3 (amended): on a dataframe in which EVERY variable named in the
fitted params is resolvable (alternative-specific variables and
case-specific non-ASC variables exist as columns of the dataframe's
length, case-specific variables name listed alternatives), with at least
one case, at least one alternative, and one row per case and alternative,
`asclogit_pred` returns a probability matrix with one row per distinct
case and one column per alternative whose entries are strictly positive
and whose rows sum to exactly `1`. -/
theorem claim_C3_asclogit_pred_amended (df : PredDF ℝ) (params : List (String × ℝ))
    (method : PredMethod) (alts : List String) (randPick : List ℝ → ℕ)
    (hnc : 0 < df.ids.dedup.length)
    (hna : 0 < alts.length)
    (hrows : df.nrows = df.ids.dedup.length * alts.length)
    (hgood : ∀ pr ∈ params, GoodParam df (predDummies df alts) (predFlags alts) pr) :
    ∃ p y v_raw,
      asclogit_pred df params method alts Real.exp randPick
        = .ok (PredReturn.tuple3 p y v_raw)
      ∧ p.length = df.ids.dedup.length
      ∧ ∀ row ∈ p, row.length = alts.length
          ∧ (∀ q ∈ row, 0 < q) ∧ row.sum = 1 :=
  asclogit_pred_ok df params method alts Real.exp randPick
    (fun x => Real.exp_pos x) hnc hna hrows hgood

/-- Fixture for the C3 witness: one case, two alternatives, a single
fitted ASC parameter. -/
def w3DF : PredDF ℝ := ⟨[5, 5], []⟩

/-- Witness for the amended C3 at a concrete one-case dataframe with a
single `"ASC for walk"` parameter. -/
theorem claim_C3_asclogit_pred_amended_witness :
    (0 < w3DF.ids.dedup.length
      ∧ 0 < ["drive", "walk"].length
      ∧ w3DF.nrows = w3DF.ids.dedup.length * ["drive", "walk"].length
      ∧ (∀ pr ∈ [("ASC for walk", (1 : ℝ))],
          GoodParam w3DF (predDummies w3DF ["drive", "walk"])
            (predFlags ["drive", "walk"]) pr))
    ∧ ∃ p y v_raw,
        asclogit_pred w3DF [("ASC for walk", (1 : ℝ))] PredMethod.max
          ["drive", "walk"] Real.exp (fun _ => 0)
          = .ok (PredReturn.tuple3 p y v_raw)
        ∧ p.length = w3DF.ids.dedup.length
        ∧ ∀ row ∈ p, row.length = ["drive", "walk"].length
            ∧ (∀ q ∈ row, 0 < q) ∧ row.sum = 1 := by
  have hgood : ∀ pr ∈ [("ASC for walk", (1 : ℝ))],
      GoodParam w3DF (predDummies w3DF ["drive", "walk"])
        (predFlags ["drive", "walk"]) pr := by
    intro pr hpr
    rcases List.mem_singleton.mp hpr with rfl
    refine Or.inr ⟨by rfl, "ASC", "walk", by rfl,
      ⟨tileOneHot 2 1 1, rfl, rfl⟩, Or.inl rfl⟩
  exact ⟨⟨by decide, by decide, rfl, hgood⟩,
    claim_C3_asclogit_pred_amended w3DF [("ASC for walk", (1 : ℝ))] PredMethod.max
      ["drive", "walk"] (fun _ => 0) (by decide) (by decide) rfl hgood⟩

/-- C10: when the fitted params contain a case-specific variable
`"X for <alt>"` whose `X` is neither `'ASC'` nor a column of the input
dataframe (all parameters before it being resolvable), `asclogit_pred`
prints an error and returns the single value `None` — not the
`(probabilities, predictions, utilities)` triple — leaving the caller with
no probability matrix. -/
theorem claim_C10_asclogit_pred_unknown_var (df : PredDF α)
    (pre rest : List (String × α)) (vn : String) (beta : α)
    (method : PredMethod) (alts : List String) (ex : α → α)
    (randPick : List α → ℕ) (main altn : String) (dummy : List α)
    (hpre : ∀ pr ∈ pre, GoodParam df (predDummies df alts) (predFlags alts) pr)
    (hflag : ((predFlags alts).any (fun f => strEndsWith vn f)) = true)
    (hsplit : pySplitOn vn " for " = [main, altn])
    (hd : List.lookup altn (predDummies df alts) = some dummy)
    (hnasc : main ≠ "ASC")
    (hcol : df.col? main = none) :
    asclogit_pred df (pre ++ (vn, beta) :: rest) method alts ex randPick
      = .ok PredReturn.noneVal := by
  obtain ⟨u, hu, hloop⟩ := utilLoop_append df (predDummies df alts) (predFlags alts)
    pre ((vn, beta) :: rest) (List.replicate df.nrows (0 : α)) (by simp) hpre
  have hstep := utilLoop_cons_none df (predDummies df alts) (predFlags alts)
    vn beta rest u dummy main altn hflag hsplit hd hnasc hcol
  have hfin : utilLoop df (predDummies df alts) (predFlags alts)
      (pre ++ (vn, beta) :: rest) (List.replicate df.nrows (0 : α))
      = .ok none := by
    rw [hloop, hstep]
  simp only [asclogit_pred, hfin, exceptOkBind]

/-- Witness for C10: a one-case dataframe with no columns and the single
parameter `"inc for walk"` (`"inc"` is not a column); the function returns
Python `None`. -/
theorem claim_C10_asclogit_pred_unknown_var_witness :
    ((∀ pr ∈ ([] : List (String × ℚ)),
        GoodParam (⟨[7, 7], []⟩ : PredDF ℚ)
          (predDummies ⟨[7, 7], []⟩ ["drive", "walk"]) (predFlags ["drive", "walk"]) pr)
      ∧ ((predFlags ["drive", "walk"]).any (fun f => strEndsWith "inc for walk" f)) = true
      ∧ pySplitOn "inc for walk" " for " = ["inc", "walk"]
      ∧ List.lookup "walk" (predDummies (⟨[7, 7], []⟩ : PredDF ℚ) ["drive", "walk"])
          = some (tileOneHot 2 1 1)
      ∧ "inc" ≠ "ASC"
      ∧ (⟨[7, 7], []⟩ : PredDF ℚ).col? "inc" = none)
    ∧ asclogit_pred (⟨[7, 7], []⟩ : PredDF ℚ)
        ([] ++ ("inc for walk", (1 : ℚ)) :: []) PredMethod.max ["drive", "walk"]
        (fun x => x) (fun _ => 0)
      = .ok PredReturn.noneVal :=
  ⟨⟨fun pr hpr => absurd hpr (List.not_mem_nil pr), by rfl, by rfl, by rfl,
      by decide, by rfl⟩,
    claim_C10_asclogit_pred_unknown_var (⟨[7, 7], []⟩ : PredDF ℚ) [] [] "inc for walk"
      1 PredMethod.max ["drive", "walk"] (fun x => x) (fun _ => 0) "inc" "walk"
      (tileOneHot 2 1 1) (fun pr hpr => absurd hpr (List.not_mem_nil pr))
      (by rfl) (by rfl) (by rfl) (by decide) (by rfl)⟩

/-- A bind whose continuation always fails fails. -/
lemma bind_exists_error {ε β γ : Type} (x : Except ε β) (f : β → Except ε γ)
    (h : ∀ b, ∃ e, f b = .error e) : ∃ e, x >>= f = .error e := by
  cases x with
  | error e => exact ⟨e, rfl⟩
  | ok b =>
    obtain ⟨e, he⟩ := h b
    exact ⟨e, by rw [exceptOkBind, he]⟩

/-- A bind whose head fails fails. -/
lemma bind_error_left {ε β γ : Type} (x : Except ε β) (f : β → Except ε γ)
    (h : ∃ e, x = .error e) : ∃ e, x >>= f = .error e := by
  obtain ⟨e, he⟩ := h
  exact ⟨e, by rw [he, exceptErrorBind]⟩

/-- The two-target unpacking of `asclogit_pred`'s return value always
raises: the function returns either the 3-tuple `(p, y, v_raw)` (too many
values to unpack) or `None` (not iterable). -/
lemma unpack2_error (v : PredReturn α) : ∃ e, unpack2 v = .error e := by
  cases v with
  | noneVal => exact ⟨.typeError, rfl⟩
  | tuple3 p y vr => exact ⟨.valueError, rfl⟩

/-- C1 (the code cannot do what the claim says): `logit_cv` never returns
the pair `(cv_metrics, cv_metrics_detail)` — on every input it raises.
For `nfold = 0` the fold size `int(ncs / nfold)` divides by zero; for
`nfold ≥ 1` the first fold's line
`pred_prob_test, y_pred_test = asclogit_pred(...)` unpacks the 3-tuple
`(p, y, v_raw)` returned by `asclogit_pred` (or `None` from its
unknown-variable branch) into two targets, which raises `ValueError`
(resp. `TypeError`) — so the mean accuracy / macro-F1 dict is never
produced. -/
theorem claim_C1_logit_cv_never_returns (data : List (LRow α))
    (alt_attr_vars generic_attrs : List String) (constant : Bool) (nfold : ℕ)
    (alts : List String) (upsample_new : List (ℕ × UpSpec)) (method : PredMethod)
    (shuffle : List ℤ → List ℤ) (pick : ℕ → ℕ → ℕ → ℕ)
    (mkModel : List (LRow α) →
      List (String × List SpecItem) × List (String × List String) × ℕ →
      MLEModel α)
    (ex : α → α) (randPick : List α → ℕ) (macroF1 : List ℕ → List ℕ → α) :
    ∃ e, logit_cv data alt_attr_vars generic_attrs constant nfold alts upsample_new
        method shuffle pick mkModel ex randPick macroF1 = .error e := by
  by_cases hnf : nfold = 0
  · subst hnf
    exact ⟨.zeroDivisionError, rfl⟩
  · obtain ⟨m, rfl⟩ : ∃ m, nfold = m + 1 := ⟨nfold - 1, by omega⟩
    simp only [logit_cv]
    rw [if_neg hnf, List.range_succ_eq_map, List.mapM_cons]
    apply bind_error_left
    apply bind_error_left
    apply bind_exists_error
    intro train
    apply bind_exists_error
    intro pred
    apply bind_error_left
    exact unpack2_error pred

/-! ### C8: structure of the upsampled dataframe -/

/-- The case blocks whose `choice` at position `k` is `1`
(`this_alt_casedata_list`). -/
def thisAltBlocks (df : List (LRow α)) (k : ℕ) : List (List (LRow α)) :=
  (caseBlocks df).filter (fun b => decide ((b.map (·.choice)).getD k 0 = 1))

/-- The case blocks drawn for the `e.1`-th entry `(k, sp) = e.2` of
`upsample_new`, before renumbering. -/
def perAltDraws (df : List (LRow α)) (pick : ℕ → ℕ → ℕ)
    (e : ℕ × (ℕ × UpSpec)) : List (List (LRow α)) :=
  (List.range (numNewOf (thisAltBlocks df e.2.1).length e.2.2).toNat).map (fun j =>
    (thisAltBlocks df e.2.1).getD (pick e.1 j % (thisAltBlocks df e.2.1).length) [])

/-- All drawn case blocks (`new_casedata_list`), in `upsample_new` order. -/
def upsampleDraws (df : List (LRow α)) (upsample_new : List (ℕ × UpSpec))
    (pick : ℕ → ℕ → ℕ) : List (List (LRow α)) :=
  (upsample_new.enum.map (perAltDraws df pick)).flatten

/-- `maxID`: the largest case ID of the input. -/
def maxGroup (df : List (LRow α)) : ℤ := ((groupsOf df).max?).getD 0

/-- The rows appended by `long_form_data_upsample`: the drawn case blocks,
each an exact copy of its source except that `group` is renumbered to
`maxID + idx + 1`. -/
def upsampleNewRows (df : List (LRow α)) (upsample_new : List (ℕ × UpSpec))
    (pick : ℕ → ℕ → ℕ) : List (LRow α) :=
  ((upsampleDraws df upsample_new pick).enum.map (fun ib =>
    ib.2.map (fun r => { r with group := maxGroup df + ib.1 + 1 }))).flatten

/-- Maximum bound for `List.max?` over the integers. -/
lemma le_max?_int {l : List ℤ} {m a : ℤ} (h : l.max? = some m) (ha : a ∈ l) :
    a ≤ m := by
  haveI : Std.Antisymm (fun (x1 x2 : ℤ) => x1 ≤ x2) :=
    ⟨fun h1 h2 => le_antisymm h1 h2⟩
  rw [List.max?_eq_some_iff le_refl max_choice (fun _ _ _ => max_le_iff)] at h
  exact h.2 a ha

/-- Success of one alternative's draw in `long_form_data_upsample`. -/
lemma altNewBlocks_ok (df : List (LRow α)) (k : ℕ) (sp : UpSpec) (pickj : ℕ → ℕ)
    (hidx : ∀ b ∈ caseBlocks df, k < b.length)
    (hpop : thisAltBlocks df k ≠ [])
    (hnn : ¬ numNewOf (thisAltBlocks df k).length sp < 0) :
    altNewBlocks (caseBlocks df) k sp pickj
      = .ok ((List.range (numNewOf (thisAltBlocks df k).length sp).toNat).map
          (fun j => (thisAltBlocks df k).getD
            (pickj j % (thisAltBlocks df k).length) [])) := by
  unfold altNewBlocks
  rw [if_pos hidx]
  have hempty : (thisAltBlocks df k).isEmpty = false := by
    rw [← Bool.not_eq_true, List.isEmpty_iff]
    exact hpop
  show (if (thisAltBlocks df k).isEmpty = true then _ else _) = _
  rw [hempty]
  simp only [Bool.false_eq_true, if_false]
  show (if numNewOf (thisAltBlocks df k).length sp < 0 then _ else _) = _
  rw [if_neg hnn]
  rfl

/-- C8: on a nonempty long-form dataframe, with every listed alternative
index within each case block, at least one case choosing each listed
alternative, and a nonnegative number of draws per entry,
`long_form_data_upsample` returns the input rows unchanged followed by
the drawn case blocks; each entry `(k, sp)` contributes exactly
`num_new` copies (`N` for `"+N"`, `num * (N - 1)` for `"*N"`), every drawn
block is one of the case blocks whose choice at `k` is `1`, the appended
blocks are those blocks with only the `group` cell renumbered, and every
fresh group ID is strictly greater than every input group ID. -/
theorem claim_C8_long_form_data_upsample (df : List (LRow α))
    (upsample_new : List (ℕ × UpSpec)) (pick : ℕ → ℕ → ℕ)
    (hne : df ≠ [])
    (hidx : ∀ ksp ∈ upsample_new, ∀ b ∈ caseBlocks df, ksp.1 < b.length)
    (hpop : ∀ ksp ∈ upsample_new, thisAltBlocks df ksp.1 ≠ [])
    (hnn : ∀ ksp ∈ upsample_new, ¬ numNewOf (thisAltBlocks df ksp.1).length ksp.2 < 0) :
    long_form_data_upsample df upsample_new pick
      = .ok (df ++ upsampleNewRows df upsample_new pick)
    ∧ (∀ e ∈ upsample_new.enum,
        (perAltDraws df pick e).length
          = (numNewOf (thisAltBlocks df e.2.1).length e.2.2).toNat)
    ∧ (∀ e ∈ upsample_new.enum, ∀ b ∈ perAltDraws df pick e,
        b ∈ thisAltBlocks df e.2.1)
    ∧ upsampleNewRows df upsample_new pick
        = ((upsampleDraws df upsample_new pick).enum.map (fun ib =>
            ib.2.map (fun r => { r with group := maxGroup df + ib.1 + 1 }))).flatten
    ∧ (∀ r ∈ upsampleNewRows df upsample_new pick, ∀ r' ∈ df, r'.group < r.group) := by
  have hmemsnd : ∀ e ∈ upsample_new.enum, e.2 ∈ upsample_new := by
    intro e he
    rw [List.enum_eq_zip_range] at he
    have := List.of_mem_zip (a := e.1) (b := e.2) (by simpa using he)
    exact this.2
  have hgne : groupsOf df ≠ [] := by
    intro h0
    unfold groupsOf at h0
    rw [List.dedup_eq_nil] at h0
    exact hne (List.map_eq_nil_iff.mp h0)
  rcases hmaxeq : (groupsOf df).max? with _ | m
  · exact absurd (List.max?_eq_none_iff.mp hmaxeq) hgne
  have hmg : maxGroup df = m := by
    unfold maxGroup
    rw [hmaxeq]
    rfl
  have hok : ∀ e ∈ upsample_new.enum,
      altNewBlocks (caseBlocks df) e.2.1 e.2.2 (pick e.1)
        = .ok (perAltDraws df pick e) := by
    intro e he
    exact altNewBlocks_ok df e.2.1 e.2.2 (pick e.1)
      (hidx e.2 (hmemsnd e he)) (hpop e.2 (hmemsnd e he)) (hnn e.2 (hmemsnd e he))
  have hmapM : (upsample_new.enum).mapM (fun e =>
      altNewBlocks (caseBlocks df) e.2.1 e.2.2 (pick e.1))
      = .ok (upsample_new.enum.map (perAltDraws df pick)) :=
    mapM_eq_map _ _ _ hok
  have hfresh : ∀ r ∈ upsampleNewRows df upsample_new pick, ∀ r' ∈ df,
      r'.group < r.group := by
    intro r hr r' hr'
    unfold upsampleNewRows at hr
    rw [List.mem_flatten] at hr
    obtain ⟨blk, hblk, hrblk⟩ := hr
    obtain ⟨ib, _, rfl⟩ := List.mem_map.mp hblk
    obtain ⟨r0, _, rfl⟩ := List.mem_map.mp hrblk
    show r'.group < maxGroup df + ib.1 + 1
    have hmem : r'.group ∈ groupsOf df :=
      List.mem_dedup.mpr (List.mem_map.mpr ⟨r', hr', rfl⟩)
    have hle : r'.group ≤ m := le_max?_int hmaxeq hmem
    rw [hmg]
    omega
  refine ⟨?_, fun e _ => by simp [perAltDraws], ?_, rfl, hfresh⟩
  · simp only [long_form_data_upsample, hmapM, exceptOkBind, hmaxeq]
    unfold upsampleNewRows upsampleDraws
    rw [hmg]
  · intro e he b hb
    unfold perAltDraws at hb
    obtain ⟨j, _, rfl⟩ := List.mem_map.mp hb
    have hlenpos : 0 < (thisAltBlocks df e.2.1).length :=
      List.length_pos.mpr (hpop e.2 (hmemsnd e he))
    have hmod : pick e.1 j % (thisAltBlocks df e.2.1).length
        < (thisAltBlocks df e.2.1).length := Nat.mod_lt _ hlenpos
    rw [List.getD_eq_getElem _ _ hmod]
    exact List.getElem_mem hmod

/-- Fixture for the C8 witness: two cases (IDs `1` and `2`), the second
choosing alternative index `1`. -/
def w8DF : List (LRow ℚ) :=
  [⟨1, "drive", 1, []⟩, ⟨1, "walk", 0, []⟩, ⟨2, "drive", 0, []⟩, ⟨2, "walk", 1, []⟩]

/-- Witness for C8: add one copy of a case choosing alternative `1`. -/
theorem claim_C8_long_form_data_upsample_witness :
    (w8DF ≠ []
      ∧ (∀ ksp ∈ [(1, UpSpec.plus 1)], ∀ b ∈ caseBlocks w8DF, ksp.1 < b.length)
      ∧ (∀ ksp ∈ [(1, UpSpec.plus 1)], thisAltBlocks w8DF ksp.1 ≠ [])
      ∧ (∀ ksp ∈ [(1, UpSpec.plus 1)],
          ¬ numNewOf (thisAltBlocks w8DF ksp.1).length ksp.2 < 0))
    ∧ (long_form_data_upsample w8DF [(1, UpSpec.plus 1)] (fun _ _ => 0)
        = .ok (w8DF ++ upsampleNewRows w8DF [(1, UpSpec.plus 1)] (fun _ _ => 0))
      ∧ (∀ e ∈ [(1, UpSpec.plus 1)].enum,
          (perAltDraws w8DF (fun _ _ => 0) e).length
            = (numNewOf (thisAltBlocks w8DF e.2.1).length e.2.2).toNat)
      ∧ (∀ e ∈ [(1, UpSpec.plus 1)].enum, ∀ b ∈ perAltDraws w8DF (fun _ _ => 0) e,
          b ∈ thisAltBlocks w8DF e.2.1)
      ∧ upsampleNewRows w8DF [(1, UpSpec.plus 1)] (fun _ _ => 0)
          = ((upsampleDraws w8DF [(1, UpSpec.plus 1)] (fun _ _ => 0)).enum.map (fun ib =>
              ib.2.map (fun r => { r with group := maxGroup w8DF + ib.1 + 1 }))).flatten
      ∧ (∀ r ∈ upsampleNewRows w8DF [(1, UpSpec.plus 1)] (fun _ _ => 0), ∀ r' ∈ w8DF,
          r'.group < r.group)) :=
  ⟨⟨by decide, by decide, by decide, by decide⟩,
    claim_C8_long_form_data_upsample w8DF [(1, UpSpec.plus 1)] (fun _ _ => 0)
      (by decide) (by decide) (by decide) (by decide)⟩

end LogitToolbox
